import Mathlib

/-!
Verification of the Citus distributed DDL coordination layer
(utility_hook.c, tablecmds.c): shallow embedding of the task-list
builders, ALTER TABLE validators, execution-mode logic, the
concurrent-index protocol and the distributed lock orderer, together
with theorems settling the specification claims.

Machine integers of the C source (Oid, uint64 shard ids, int task ids)
are modelled as Nat: none of the modelled code performs arithmetic that
can overflow (ids are only generated, copied and compared).

External collaborators (PostgreSQL catalog lookups, the metadata cache,
predicates from Citus files not present under src/) are modelled as
fields of a Catalog record: each such field is one pure query function,
matching how the C code treats them as side-effect-free lookups.
-/

namespace Citus

/-- Relation identifier; 0 plays the role of InvalidOid. -/
abbrev Oid := Nat

/-- Value of InvalidOid in the embedding. -/
def invalidOid : Oid := 0

/-- Distribution method of a relation: DISTRIBUTE_BY_HASH, _APPEND,
_RANGE, or _NONE (reference tables). -/
inductive DistributionMethod
  | hash
  | append
  | byRange
  | none
  deriving DecidableEq, Repr

/-- One horizontal partition of a distributed relation (ShardInterval).
Only the shard id is consulted by the modelled code. -/
structure ShardInterval where
  shardId : Nat
  deriving DecidableEq, Repr

/-- One physical replica of a shard on a worker node (ShardPlacement). -/
structure ShardPlacement where
  shardId : Nat
  nodeName : String
  nodePort : Nat
  deriving DecidableEq, Repr

/-- Lock modes used by the modelled code paths. -/
inductive LockMode
  | share
  | accessExclusive
  deriving DecidableEq, Repr

/-- A worker node: group id plus network address, as used by the
distributed lock orderer. -/
structure WorkerNode where
  groupId : Int
  nodeName : String
  nodePort : Nat
  deriving DecidableEq, Repr

/-- A (relation, shard) descriptor attached to inter-shard tasks
(RelationShard node). -/
structure RelationShard where
  relationId : Oid
  shardId : Nat
  deriving DecidableEq, Repr

/-- Task types relevant to the modelled code (Task.taskType). -/
inductive TaskType
  | ddl
  deriving DecidableEq, Repr

/-- One shard-scoped unit of execution (Task). Fields not read by any
modelled code path (replicationModel, dependedTaskList) are omitted. -/
structure Task where
  jobId : Nat
  taskId : Nat
  taskType : TaskType
  queryString : String
  anchorShardId : Nat
  taskPlacementList : List ShardPlacement
  relationShardList : List RelationShard
  deriving DecidableEq, Repr

/-- The unit of propagation work for one validated command (DDLJob). -/
structure DDLJob where
  targetRelationId : Oid
  concurrentIndexCmd : Bool
  commandString : String
  executeSequentially : Bool
  taskList : List Task
  deriving DecidableEq, Repr

/-- Kind of a pg_class entry, as returned by get_rel_relkind. -/
inductive RelKind
  | table
  | index
  | other
  deriving DecidableEq, Repr

/-- Per-index information extracted by BuildIndexInfo: the indexed
attribute numbers, the unique flag, and for exclusion constraints the
per-attribute operator list (ii_ExclusionOps). -/
structure IndexModel where
  unique : Bool
  attrs : List Nat
  exclusionOps : Option (List Oid)
  deriving DecidableEq, Repr

/-- Constraint types (Constraint.contype) distinguished by the code. -/
inductive ConstraintType
  | foreign
  | primary
  | uniqueC
  | check
  | exclusion
  | otherC
  deriving DecidableEq, Repr

/-- A parsed Constraint node. The pktable RangeVar is modelled by the
relation id it resolves to (0 when the named relation does not exist);
RangeVarGetRelid itself is a PostgreSQL lookup outside this code. -/
structure ConstraintModel where
  contype : ConstraintType
  conname : Option String
  pktableId : Oid
  deriving DecidableEq, Repr

/-- A parsed ColumnDef node: type name path, pct_type flag (true for
percent-TYPE references) and attached column constraints. -/
structure ColumnDefModel where
  typeNames : List String
  pctType : Bool
  constraints : List ConstraintModel
  deriving DecidableEq, Repr

/-- ALTER TABLE subcommand tags (AlterTableType) distinguished by the
modelled code. otherUnsupported stands for every tag that falls into
the default arm of ErrorIfUnsupportedAlterTableStmt. -/
inductive AlterCmdTag
  | addColumn
  | dropColumn
  | columnDefault
  | alterColumnType
  | dropNotNull
  | setNotNull
  | addConstraint
  | dropConstraint
  | attachPartition
  | detachPartition
  | setRelOptions
  | resetRelOptions
  | replaceRelOptions
  | enableTrigAll
  | disableTrigAll
  | replicaIdentity
  | setTableSpace
  | otherUnsupported
  deriving DecidableEq, Repr

/-- One AlterTableCmd. The def field of the C node is a union; here it
is split into the two shapes the code casts it to, present according to
the subcommand tag. The PartitionCmd name of ATTACH/DETACH PARTITION is
modelled by the relation id it resolves to (0 when missing). -/
structure AlterTableCmd where
  subtype : AlterCmdTag
  name : Option String
  defColumn : Option ColumnDefModel
  defConstraint : Option ConstraintModel
  defPartitionId : Oid
  deriving DecidableEq, Repr

/-- An AlterTableStmt. relationId records the result of
AlterTableLookupRelation (0 when the relation cannot be resolved); the
lookup itself is a PostgreSQL/citus-cache call outside this code and is
deterministic within one command, so one stored value models all the
repeated lookups the C code performs. -/
structure AlterTableStmtModel where
  relationPresent : Bool
  relationId : Oid
  missingOk : Bool
  cmds : List AlterTableCmd
  deriving DecidableEq, Repr

/-- Catalog and metadata-cache environment consulted by the modelled
code. Fields marked spec-modelled stand for Citus functions whose
definitions are not under src (foreign_constraint.c, metadata layer);
they are modelled from the spec as opaque query results. -/
structure Catalog where
  loadShardIntervalList : Oid → List ShardInterval
  namespaceName : Oid → String
  finalizedShardPlacementList : Nat → List ShardPlacement
  partitionMethod : Oid → DistributionMethod
  isDistributedTable : Oid → Bool
  distPartitionKey : Oid → Option Nat
  attributeNumber : Oid → String → Option Nat
  relKind : Oid → RelKind
  indexGetRelation : Oid → Oid
  tablesColocated : Oid → Oid → Bool
  relationIndexList : Oid → List IndexModel
  operatorImplementsEquality : Oid → Bool
  relationName : Oid → String
  qualifiedRelationName : Oid → String
  shouldSyncTableMetadata : Oid → Bool
  localGroupId : Int
  /-- Modelled from the spec: ConstraintIsAForeignKey (foreign_constraint.c,
  not under src) - whether the named constraint of the relation is a
  foreign key constraint. -/
  constraintIsForeignKey : String → Oid → Bool
  /-- Modelled from the spec: ConstraintIsAForeignKeyToReferenceTable
  (foreign_constraint.c, not under src) - whether the named constraint is a
  foreign key whose referenced side is a reference table. -/
  constraintIsFKToReferenceTable : String → Oid → Bool
  /-- Modelled from the spec: ColumnAppearsInForeignKeyToReferenceTable
  (foreign_constraint.c, not under src) - whether the named column of the
  relation participates in a foreign key to a reference table. -/
  columnAppearsInFKToReferenceTable : String → Oid → Bool
  /-- Modelled from the spec: TableReferenced (foreign_constraint.c, not
  under src) - whether some table holds a foreign key referencing this
  relation; per the spec, for a reference table such a referencing table
  is a hash-distributed table. -/
  tableReferenced : Oid → Bool
  /-- Modelled from the spec: ErrorIfUnsupportedForeignConstraint
  (foreign_constraint.c, not under src) - whether the delegated
  foreign-key checks for the relation pass (true) or reject (false). -/
  foreignConstraintCheckPasses : Oid → Bool

/-- Transaction-scoped execution state read and written by the modelled
code: whether a transaction block is open, whether a parallel shard
query already ran in it, and the multi-shard modify mode flag. -/
structure TxState where
  isTransactionBlock : Bool
  parallelQueryExecuted : Bool
  multiShardModifyModeSequential : Bool
  deriving DecidableEq, Repr

/-- SetLocalMultiShardModifyModeToSequential (multi_executor, external):
sets the transaction-local multi-shard modify mode to sequential. -/
def setSequentialMode (tx : TxState) : TxState :=
  { tx with multiShardModifyModeSequential := true }

/-! ### Rendered command grammar -/

/-- Modelled from the spec: PostgreSQL quote_literal_cstr (external) -
wraps the text in single quotes, doubling embedded single quotes. -/
def quoteLiteralCstr (s : String) : String :=
  "\x27" ++ s.replace "\x27" "\x27\x27" ++ "\x27"

/-- Modelled from the spec: the WORKER_APPLY_SHARD_DDL_COMMAND format
string (header not under src) - the function-style wrapper taking
(shard id, schema name literal, command-text literal). -/
def workerApplyShardDDLCommand (shardId : Nat) (escapedSchemaName escapedCommandString : String) : String :=
  "SELECT worker_apply_shard_ddl_command (" ++ toString shardId ++ ", " ++
    escapedSchemaName ++ ", " ++ escapedCommandString ++ ")"

/-- Modelled from the spec: the WORKER_APPLY_INTER_SHARD_DDL_COMMAND
format string (header not under src) - the function-style wrapper taking
(left shard id, left schema literal, right shard id, right schema
literal, command-text literal). -/
def workerApplyInterShardDDLCommand (leftShardId : Nat) (escapedLeftSchemaName : String)
    (rightShardId : Nat) (escapedRightSchemaName : String) (escapedCommandString : String) : String :=
  "SELECT worker_apply_inter_shard_ddl_command (" ++ toString leftShardId ++ ", " ++
    escapedLeftSchemaName ++ ", " ++ toString rightShardId ++ ", " ++
    escapedRightSchemaName ++ ", " ++ escapedCommandString ++ ")"

/-! ### Task list builders (DDLTaskList, InterShardDDLTaskList) -/

/-- Observable catalog interactions of the task-list builders: the
shard-metadata lock taken by LockShardListMetadata and each call to
FinalizedShardPlacementList. -/
inductive BuildEvent
  | lockShardListMetadata (shardIds : List Nat) (mode : LockMode)
  | placementLookup (shardId : Nat)
  deriving DecidableEq, Repr

/-- INVALID_JOB_ID used for DDL jobs. -/
def invalidJobId : Nat := 0

/-- The foreach loop body of DDLTaskList: one task per shard interval,
task ids counting up from the given start. -/
def ddlTasksLoop (cat : Catalog) (escapedSchemaName escapedCommandString : String) :
    Nat → List ShardInterval → List Task
  | _, [] => []
  | taskId, si :: rest =>
    { jobId := invalidJobId
      taskId := taskId
      taskType := .ddl
      queryString := workerApplyShardDDLCommand si.shardId escapedSchemaName escapedCommandString
      anchorShardId := si.shardId
      taskPlacementList := cat.finalizedShardPlacementList si.shardId
      relationShardList := [] } :: ddlTasksLoop cat escapedSchemaName escapedCommandString (taskId + 1) rest

/-- DDLTaskList (utility_hook.c): builds one task per shard of the
relation, locking shard metadata in shared mode before the placement
lookups. Returns the task list together with the catalog-interaction
trace. -/
def DDLTaskList (cat : Catalog) (relationId : Oid) (commandString : String) :
    List Task × List BuildEvent :=
  let shardIntervalList := cat.loadShardIntervalList relationId
  let schemaName := cat.namespaceName relationId
  let escapedSchemaName := quoteLiteralCstr schemaName
  let escapedCommandString := quoteLiteralCstr commandString
  let tasks := ddlTasksLoop cat escapedSchemaName escapedCommandString 1 shardIntervalList
  let events := BuildEvent.lockShardListMetadata (shardIntervalList.map (·.shardId)) .share ::
    shardIntervalList.map (fun si => BuildEvent.placementLookup si.shardId)
  (tasks, events)

/-- The reference-table broadcast step of InterShardDDLTaskList: when the
right relation is a reference table, its first (and asserted only) shard
interval is appended repeatedly until the right list is as long as the
left one; an empty right list (impossible under the assert) is kept
empty, mirroring that linitial would have no element to repeat. -/
def broadcastReferenceShard (rightShardList : List ShardInterval) (leftShardCount : Nat) :
    List ShardInterval :=
  match rightShardList with
  | [] => []
  | r :: rest => (r :: rest) ++ List.replicate (leftShardCount - (r :: rest).length) r

/-- The forboth loop body of InterShardDDLTaskList: one task per
left/right shard pair (the pairing stops when either list is exhausted,
as forboth does), task ids counting up from the given start. -/
def interShardTasksLoop (cat : Catalog) (leftRelationId rightRelationId : Oid)
    (escapedLeftSchemaName escapedRightSchemaName escapedCommandString : String) :
    Nat → List ShardInterval → List ShardInterval → List Task
  | _, [], _ => []
  | _, _ :: _, [] => []
  | taskId, l :: ls, r :: rs =>
    { jobId := invalidJobId
      taskId := taskId
      taskType := .ddl
      queryString := workerApplyInterShardDDLCommand l.shardId escapedLeftSchemaName
        r.shardId escapedRightSchemaName escapedCommandString
      anchorShardId := l.shardId
      taskPlacementList := cat.finalizedShardPlacementList l.shardId
      relationShardList := [⟨leftRelationId, l.shardId⟩, ⟨rightRelationId, r.shardId⟩] } ::
      interShardTasksLoop cat leftRelationId rightRelationId escapedLeftSchemaName
        escapedRightSchemaName escapedCommandString (taskId + 1) ls rs

/-- InterShardDDLTaskList (utility_hook.c): pairs the shards of the left
relation with those of the right relation, broadcasting the single shard
of a reference-table right relation, and builds one inter-shard DDL task
per pair. Returns the task list together with the catalog-interaction
trace (the left shard metadata is locked before placement lookups). -/
def InterShardDDLTaskList (cat : Catalog) (leftRelationId rightRelationId : Oid)
    (commandString : String) : List Task × List BuildEvent :=
  let leftShardList := cat.loadShardIntervalList leftRelationId
  let escapedLeftSchemaName := quoteLiteralCstr (cat.namespaceName leftRelationId)
  let rightPartitionMethod := cat.partitionMethod rightRelationId
  let rightShardList0 := cat.loadShardIntervalList rightRelationId
  let escapedRightSchemaName := quoteLiteralCstr (cat.namespaceName rightRelationId)
  let escapedCommandString := quoteLiteralCstr commandString
  let rightShardList :=
    if rightPartitionMethod = .none then broadcastReferenceShard rightShardList0 leftShardList.length
    else rightShardList0
  let tasks := interShardTasksLoop cat leftRelationId rightRelationId escapedLeftSchemaName
    escapedRightSchemaName escapedCommandString 1 leftShardList rightShardList
  let events := BuildEvent.lockShardListMetadata (leftShardList.map (·.shardId)) .share ::
    leftShardList.map (fun si => BuildEvent.placementLookup si.shardId)
  (tasks, events)

/-! ### Execution mode logic -/

/-- Errors raised (via ereport ERROR) by the modelled code paths. -/
inductive CitusError
  | addColumnSerialPseudotype
  | involvesPartitionColumn
  | addConstraintWithOtherSubcommands
  | constraintWithoutName
  | attachPartitionWithOtherSubcommands
  | nonColocatedPartition
  | detachPartitionWithOtherSubcommands
  | alterTableUnsupported
  | alterIndexUnsupported
  | relationDoesNotExist
  | missingDistributionColumn
  | fkConstraintUnsupported
  | conflictingExecutionMode (relationName : String) (hint : String)
  deriving DecidableEq, Repr

/-- The errhint text of the conflicting-execution-mode error, telling
the caller to set sequential mode explicitly up front. -/
def conflictingModeHint : String :=
  "Try re-running the transaction with SET LOCAL citus.multi_shard_modify_mode TO \x27sequential\x27;"

/-- The executeSequentially computation of SetupExecutionModeForAlterTable
(the if/else-if chain on the subcommand tag), returning the flag together
with the possibly updated transaction state (ALTER COLUMN TYPE inside a
transaction block switches the multi-shard modify mode to sequential). -/
def alterTableSequentialFlag (cat : Catalog) (tx : TxState) (relationId : Oid)
    (command : AlterTableCmd) : Bool × TxState :=
  if command.subtype = .dropConstraint then
    (cat.constraintIsFKToReferenceTable (command.name.getD "") relationId, tx)
  else if command.subtype = .addColumn then
    match command.defColumn with
    | some col =>
      (col.constraints.any (fun c =>
        c.contype == .foreign && cat.isDistributedTable c.pktableId &&
          cat.partitionMethod c.pktableId == .none), tx)
    | Option.none => (false, tx)
  else if command.subtype = .dropColumn then
    (cat.columnAppearsInFKToReferenceTable (command.name.getD "") relationId, tx)
  else if command.subtype = .alterColumnType then
    if cat.columnAppearsInFKToReferenceTable (command.name.getD "") relationId then
      (true, if tx.isTransactionBlock then setSequentialMode tx else tx)
    else (false, tx)
  else if command.subtype = .addConstraint then
    match command.defConstraint with
    | some c =>
      (c.contype == .foreign && cat.isDistributedTable c.pktableId &&
        cat.partitionMethod c.pktableId == .none, tx)
    | Option.none => (false, tx)
  else (false, tx)

/-- SetupExecutionModeForAlterTable (utility_hook.c): decides whether the
subcommand must run sequentially; if it must, but a parallel shard query
already ran in this transaction against a distributed non-reference
target relation, errors out instead of downgrading. -/
def SetupExecutionModeForAlterTable (cat : Catalog) (tx : TxState) (relationId : Oid)
    (command : AlterTableCmd) : Except CitusError (Bool × TxState) :=
  if (alterTableSequentialFlag cat tx relationId command).1 &&
      cat.isDistributedTable relationId &&
      !(cat.partitionMethod relationId == .none) && tx.parallelQueryExecuted then
    .error (.conflictingExecutionMode (cat.relationName relationId) conflictingModeHint)
  else
    .ok (alterTableSequentialFlag cat tx relationId command)

/-- ExecuteTruncateStmtSequentialIfNecessary (tablecmds.c): switches the
transaction to sequential multi-shard modify mode as soon as one
truncated relation is a reference table referenced through a foreign
key, and stops scanning. The TruncateStmt relation list is modelled by
the relation ids its RangeVars resolve to. -/
def ExecuteTruncateStmtSequentialIfNecessary (cat : Catalog) (tx : TxState) :
    List Oid → TxState
  | [] => tx
  | relationId :: rest =>
    if cat.isDistributedTable relationId && cat.partitionMethod relationId == .none &&
        cat.tableReferenced relationId then
      setSequentialMode tx
    else
      ExecuteTruncateStmtSequentialIfNecessary cat tx rest

/-- The condition of claim C3 under which a command must run
sequentially, stated in the words of the spec: it drops or type-alters a
column participating in a foreign key to a reference table, or it adds
(via ADD CONSTRAINT or via an ADD COLUMN column constraint) or drops a
foreign-key constraint whose referenced side is a reference table. -/
def RequiresSequentialAlter (cat : Catalog) (relationId : Oid) (command : AlterTableCmd) : Prop :=
  ((command.subtype = .dropColumn ∨ command.subtype = .alterColumnType) ∧
    cat.columnAppearsInFKToReferenceTable (command.name.getD "") relationId = true) ∨
  (command.subtype = .dropConstraint ∧
    cat.constraintIsFKToReferenceTable (command.name.getD "") relationId = true) ∨
  (command.subtype = .addConstraint ∧ ∃ c, command.defConstraint = some c ∧
    c.contype = .foreign ∧ cat.isDistributedTable c.pktableId = true ∧
    cat.partitionMethod c.pktableId = .none) ∨
  (command.subtype = .addColumn ∧ ∃ col, command.defColumn = some col ∧
    ∃ c ∈ col.constraints, c.contype = .foreign ∧ cat.isDistributedTable c.pktableId = true ∧
      cat.partitionMethod c.pktableId = .none)

/-! ### ALTER TABLE validator -/

/-- Side effects performed by the ALTER TABLE validator. -/
inductive ValidatorEffect
  | markInvalidateForeignKeyGraph
  deriving DecidableEq, Repr

/-- The serial pseudo-type names rejected for ADD COLUMN. -/
def serialTypeNames : List String :=
  ["smallserial", "serial2", "serial", "serial4", "bigserial", "serial8"]

/-- AlterInvolvesPartitionColumn (utility_hook.c): whether the named
column of the subcommand is the distribution (partition) column of the
relation. Reference tables have no partition column and always give
false. -/
def AlterInvolvesPartitionColumn (cat : Catalog) (stmt : AlterTableStmtModel)
    (command : AlterTableCmd) : Bool :=
  if stmt.relationId = 0 then false
  else
    match command.name.bind (cat.attributeNumber stmt.relationId),
        cat.distPartitionKey stmt.relationId with
    | some attnum, some varattno => attnum == varattno
    | _, _ => false

/-- Result of checking one subcommand inside
ErrorIfUnsupportedAlterTableStmt: proceed to the next subcommand (with
accumulated side effects), return from the whole validator early (the
plain return in the DROP CONSTRAINT arm), or raise an error. -/
inductive StepResult
  | proceed (effects : List ValidatorEffect)
  | stop
  | fail (e : CitusError)
  deriving DecidableEq, Repr

/-- One arm of the subcommand switch of ErrorIfUnsupportedAlterTableStmt
(utility_hook.c). -/
def alterTableCmdCheck (cat : Catalog) (stmt : AlterTableStmtModel)
    (command : AlterTableCmd) : StepResult :=
  match command.subtype with
  | .addColumn =>
    match command.defColumn with
    | some column =>
      if (column.typeNames.length == 1) && !column.pctType &&
          (match column.typeNames with
           | n :: _ => serialTypeNames.contains n
           | [] => false) then
        .fail .addColumnSerialPseudotype
      else .proceed []
    | Option.none => .proceed []
  | .dropColumn | .columnDefault | .alterColumnType | .dropNotNull =>
    if AlterInvolvesPartitionColumn cat stmt command then .fail .involvesPartitionColumn
    else .proceed []
  | .addConstraint =>
    if stmt.cmds.length > 1 then .fail .addConstraintWithOtherSubcommands
    else
      match command.defConstraint with
      | some c =>
        if c.conname = Option.none then .fail .constraintWithoutName else .proceed []
      | Option.none => .fail .constraintWithoutName
  | .attachPartition =>
    if command.defPartitionId = 0 then .fail .relationDoesNotExist
    else if stmt.cmds.length > 1 then .fail .attachPartitionWithOtherSubcommands
    else if cat.isDistributedTable command.defPartitionId &&
        !cat.tablesColocated stmt.relationId command.defPartitionId then
      .fail .nonColocatedPartition
    else .proceed []
  | .detachPartition =>
    if stmt.cmds.length > 1 then .fail .detachPartitionWithOtherSubcommands
    else .proceed []
  | .dropConstraint =>
    if stmt.relationId = 0 then .stop
    else if cat.constraintIsForeignKey (command.name.getD "") stmt.relationId then
      .proceed [.markInvalidateForeignKeyGraph]
    else .proceed []
  | .setNotNull => .proceed []
  | .enableTrigAll => .proceed []
  | .disableTrigAll => .proceed []
  | .replicaIdentity => .proceed []
  | .setRelOptions => .proceed []
  | .resetRelOptions => .proceed []
  | .replaceRelOptions => .proceed []
  | .setTableSpace => .fail .alterTableUnsupported
  | .otherUnsupported => .fail .alterTableUnsupported

/-- The foreach loop of ErrorIfUnsupportedAlterTableStmt over the
subcommand list. -/
def errorIfUnsupportedAlterTableLoop (cat : Catalog) (stmt : AlterTableStmtModel) :
    List AlterTableCmd → Except CitusError (List ValidatorEffect)
  | [] => .ok []
  | command :: rest =>
    match alterTableCmdCheck cat stmt command with
    | .fail e => .error e
    | .stop => .ok []
    | .proceed effs =>
      match errorIfUnsupportedAlterTableLoop cat stmt rest with
      | .error e => .error e
      | .ok effs2 => .ok (effs ++ effs2)

/-- ErrorIfUnsupportedAlterTableStmt (utility_hook.c): walks the
subcommands, raising an error at the first unsupported one and recording
the foreign-key-graph invalidation side effect. -/
def ErrorIfUnsupportedAlterTableStmt (cat : Catalog) (stmt : AlterTableStmtModel) :
    Except CitusError (List ValidatorEffect) :=
  errorIfUnsupportedAlterTableLoop cat stmt stmt.cmds

/-- The foreach loop of ErrorIfUnsupportedAlterIndexStmt: only SET (),
RESET () and option replacement are allowed on an index. -/
def errorIfUnsupportedAlterIndexLoop : List AlterTableCmd → Except CitusError Unit
  | [] => .ok ()
  | command :: rest =>
    match command.subtype with
    | .setRelOptions => errorIfUnsupportedAlterIndexLoop rest
    | .resetRelOptions => errorIfUnsupportedAlterIndexLoop rest
    | .replaceRelOptions => errorIfUnsupportedAlterIndexLoop rest
    | _ => .error .alterIndexUnsupported

/-- ErrorIfUnsupportedAlterIndexStmt (utility_hook.c). -/
def ErrorIfUnsupportedAlterIndexStmt (stmt : AlterTableStmtModel) : Except CitusError Unit :=
  errorIfUnsupportedAlterIndexLoop stmt.cmds

/-! ### Uniqueness constraint validation -/

/-- A non-fatal warning emitted by the constraint validator. -/
inductive ConstraintWarning
  | uniqueOnAppendTable (relationName : String)
  deriving DecidableEq, Repr

/-- Whether an index participates in the uniqueness checks: a unique
index or an exclusion constraint. -/
def relevantIndex (idx : IndexModel) : Bool :=
  idx.unique || idx.exclusionOps.isSome

/-- The inner attribute loop of ErrorIfUnsupportedConstraint: whether
some indexed attribute is the distribution column and the index is
unique or its exclusion operator at that position implements
equality. -/
def indexHasDistributionColumn (cat : Catalog) (idx : IndexModel) (varattno : Nat) : Bool :=
  idx.attrs.enum.any (fun p =>
    p.2 == varattno &&
      (idx.unique ||
        (match idx.exclusionOps with
         | some ops => cat.operatorImplementsEquality (ops.getD p.1 0)
         | Option.none => false)))

/-- The distribution-column test against an optional partition key (the
distributionColumn argument of ErrorIfUnsupportedConstraint). -/
def indexCoversDistributionColumn (cat : Catalog) (idx : IndexModel)
    (distributionColumn : Option Nat) : Bool :=
  match distributionColumn with
  | some varattno => indexHasDistributionColumn cat idx varattno
  | Option.none => false

/-- The index loop of ErrorIfUnsupportedConstraint: skips non-unique,
non-exclusion indexes, warns on append-distributed tables, and errors at
the first unique or exclusion index not covering the distribution
column. Returns the warnings emitted before stopping together with the
optional error. -/
def errorIfUnsupportedConstraintLoop (cat : Catalog) (relationName : String)
    (distributionMethod : DistributionMethod) (distributionColumn : Option Nat) :
    List IndexModel → List ConstraintWarning × Option CitusError
  | [] => ([], Option.none)
  | idx :: rest =>
    if relevantIndex idx = false then
      errorIfUnsupportedConstraintLoop cat relationName distributionMethod distributionColumn rest
    else
      let warns := if distributionMethod = .append then
        [ConstraintWarning.uniqueOnAppendTable relationName] else []
      if indexCoversDistributionColumn cat idx distributionColumn then
        let r := errorIfUnsupportedConstraintLoop cat relationName distributionMethod
          distributionColumn rest
        (warns ++ r.1, r.2)
      else (warns, some .missingDistributionColumn)

/-- ErrorIfUnsupportedConstraint (utility_hook.c): first the delegated
foreign-key checks, then an early exemption for reference tables
(method none), then the unique/exclusion index loop. -/
def ErrorIfUnsupportedConstraint (cat : Catalog) (relationId : Oid)
    (distributionMethod : DistributionMethod) (distributionColumn : Option Nat) :
    List ConstraintWarning × Option CitusError :=
  if cat.foreignConstraintCheckPasses relationId = false then
    ([], some .fkConstraintUnsupported)
  else if distributionMethod = .none then ([], Option.none)
  else
    errorIfUnsupportedConstraintLoop cat (cat.relationName relationId) distributionMethod
      distributionColumn (cat.relationIndexList relationId)

/-- ErrorIfUnsupportedAlterAddConstraintStmt (utility_hook.c): runs the
constraint checks with the distribution properties of the target
relation of the ALTER TABLE statement. -/
def ErrorIfUnsupportedAlterAddConstraintStmt (cat : Catalog) (stmt : AlterTableStmtModel) :
    List ConstraintWarning × Option CitusError :=
  ErrorIfUnsupportedConstraint cat stmt.relationId (cat.partitionMethod stmt.relationId)
    (cat.distPartitionKey stmt.relationId)

/-! ### DDL job execution and the concurrent-index protocol -/

/-- Modelled from the spec: the DISABLE_DDL_PROPAGATION directive
(header not under src) broadcast before relayed commands to prevent
re-propagation loops. -/
def disableDDLPropagation : String :=
  "SET citus.enable_ddl_propagation TO \x27off\x27"

/-- Observable actions of ExecuteDistributedDDLJob: plain commands sent
to metadata workers, shard task execution (sequential or parallel), and
the bare (transaction-less) command list broadcast of the concurrent
index path. -/
inductive ExecEvent
  | sendToMetadataWorkers (command : String)
  | executeTasksSequentially (tasks : List Task)
  | executeTasksParallel (tasks : List Task)
  | sendBareCommandsToMetadataWorkers (commands : List String)
  deriving DecidableEq, Repr

/-- An ereport payload: message, detail and hint. -/
structure ErrorReport where
  message : String
  detail : String
  hint : String
  deriving DecidableEq, Repr

/-- The error raised in the PG_CATCH arm of the concurrent-index path of
ExecuteDistributedDDLJob, instructing the operator to drop the invalid
index and retry. -/
def concurrentIndexFailureError : ErrorReport :=
  { message := "CONCURRENTLY-enabled index command failed"
    detail := "CONCURRENTLY-enabled index commands can fail partially, leaving behind an INVALID index."
    hint := "Use DROP INDEX CONCURRENTLY IF EXISTS to remove the invalid index, then retry the original command." }

/-- Failure of a DDL job execution: an underlying task or connection
error propagated unchanged, or an ereport raised by this function. -/
inductive ExecFailure
  | underlying
  | report (e : ErrorReport)
  deriving DecidableEq, Repr

/-- ExecuteDistributedDDLJob (utility_hook.c). Worker-side success of
the shard task execution and of the bare metadata broadcast are external
outcomes, passed as the two Bool arguments; searchPathCommand is the
optional SET search_path command generated from the session state
(SetSearchPathToCurrentSearchPathCommand); sequentialConnection models
MultiShardConnectionType = SEQUENTIAL_CONNECTION. Returns the event
trace up to the first failure together with the optional failure. -/
def ExecuteDistributedDDLJob (cat : Catalog) (job : DDLJob)
    (searchPathCommand : Option String) (sequentialConnection : Bool)
    (taskExecutionSucceeds broadcastSucceeds : Bool) :
    List ExecEvent × Option ExecFailure :=
  let shouldSyncMetadata := cat.shouldSyncTableMetadata job.targetRelationId
  if !job.concurrentIndexCmd then
    let syncEvents : List ExecEvent :=
      if shouldSyncMetadata then
        ExecEvent.sendToMetadataWorkers disableDDLPropagation ::
          ((match searchPathCommand with
            | some sp => [ExecEvent.sendToMetadataWorkers sp]
            | Option.none => []) ++
            [ExecEvent.sendToMetadataWorkers job.commandString])
      else []
    let taskEvent : ExecEvent :=
      if sequentialConnection || job.executeSequentially then
        .executeTasksSequentially job.taskList
      else .executeTasksParallel job.taskList
    (syncEvents ++ [taskEvent],
      if taskExecutionSucceeds then Option.none else some .underlying)
  else
    if !taskExecutionSucceeds then
      ([.executeTasksSequentially job.taskList], some (.report concurrentIndexFailureError))
    else if shouldSyncMetadata then
      let commandList : List String :=
        disableDDLPropagation ::
          ((match searchPathCommand with
            | some sp => [sp]
            | Option.none => []) ++ [job.commandString])
      ([.executeTasksSequentially job.taskList,
          .sendBareCommandsToMetadataWorkers commandList],
        if broadcastSucceeds then Option.none else some (.report concurrentIndexFailureError))
    else
      ([.executeTasksSequentially job.taskList], Option.none)

/-- Transaction-level actions of PostProcessUtility. -/
inductive TxnEvent
  | commitTransaction
  | startTransaction
  | markIndexInvalidInPlace
  | markIndexValidTransactional
  deriving DecidableEq, Repr

/-- PostProcessUtility (utility_hook.c): for a CONCURRENTLY index
statement on the coordinator, commits the running transaction, starts a
new one, marks the local index invalid in place (non-transactional, not
undone by any rollback), commits again, and finally flips validity back
to valid through a rollback-able catalog update. -/
def PostProcessUtility (isConcurrentIndexStmt isCoordinator : Bool) : List TxnEvent :=
  if isConcurrentIndexStmt && isCoordinator then
    [.commitTransaction, .startTransaction, .markIndexInvalidInPlace,
      .commitTransaction, .startTransaction, .markIndexValidTransactional]
  else []

/-- One event of the multi_ProcessUtility tail for a DDL command. -/
inductive UtilityEvent
  | localCommandApplied
  | txn (e : TxnEvent)
  | invalidateForeignKeyGraphForDDL
  | exec (e : ExecEvent)
  deriving DecidableEq, Repr

/-- The tail of multi_ProcessUtility for a CONCURRENTLY index statement
whose planning produced a DDL job: the local command is applied by
standard_ProcessUtility, then PostProcessUtility runs (because the job
list is non-empty), then the foreign-key graph invalidation point, and
only then ExecuteDistributedDDLJob. -/
def ProcessUtilityConcurrentIndexTail (cat : Catalog) (job : DDLJob)
    (searchPathCommand : Option String) (sequentialConnection : Bool)
    (taskExecutionSucceeds broadcastSucceeds isCoordinator : Bool) :
    List UtilityEvent × Option ExecFailure :=
  let post := PostProcessUtility true isCoordinator
  let jobRun := ExecuteDistributedDDLJob cat job searchPathCommand sequentialConnection
    taskExecutionSucceeds broadcastSucceeds
  (UtilityEvent.localCommandApplied :: (post.map .txn ++
      [UtilityEvent.invalidateForeignKeyGraphForDDL] ++ jobRun.1.map .exec),
    jobRun.2)

/-- Whether a utility event is a shard-level task execution attempt. -/
def isShardTaskExecution : UtilityEvent → Bool
  | .exec (.executeTasksSequentially _) => true
  | .exec (.executeTasksParallel _) => true
  | _ => false

/-- Whether a utility event is the non-transactional in-place
invalidation of the local index. -/
def isMarkIndexInvalid : UtilityEvent → Bool
  | .txn .markIndexInvalidInPlace => true
  | _ => false

/-! ### Distributed lock orderer -/

/-- The total order key of a worker node: group id, then address, as the
spec fixes the WorkerNode ordering (CompareWorkerNodes is outside src). -/
def workerSortKey (w : WorkerNode) : Int ×ₗ (String ×ₗ Nat) :=
  toLex (w.groupId, toLex (w.nodeName, w.nodePort))

/-- The worker-node comparison used by SortList over worker nodes. -/
def workerLe (a b : WorkerNode) : Prop :=
  workerSortKey a ≤ workerSortKey b

instance : DecidableRel workerLe :=
  fun a b => inferInstanceAs (Decidable (workerSortKey a ≤ workerSortKey b))

instance : IsTotal WorkerNode workerLe :=
  ⟨fun a b => le_total (workerSortKey a) (workerSortKey b)⟩

instance : IsTrans WorkerNode workerLe :=
  ⟨fun _ _ _ hab hbc => le_trans hab hbc⟩

instance : IsAntisymm WorkerNode workerLe := by
  refine ⟨fun a b hab hba => ?_⟩
  have h := le_antisymm hab hba
  obtain ⟨ga, na, pa⟩ := a
  obtain ⟨gb, nb, pb⟩ := b
  simp [workerSortKey, Prod.ext_iff] at h
  obtain ⟨h1, h2, h3⟩ := h
  subst h1
  subst h2
  subst h3
  rfl

/-- Modelled from the spec: LockModeToLockModeText (resource_lock, not
under src) - the textual lock mode name sent to workers. -/
def lockModeToLockModeText : LockMode → String
  | .share => "SHARE"
  | .accessExclusive => "ACCESS EXCLUSIVE"

/-- The LOCK_RELATION_IF_EXISTS command format (tablecmds.c). -/
def lockRelationIfExistsCommand (qualifiedName lockModeText : String) : String :=
  "SELECT lock_relation_if_exists(\x27" ++ qualifiedName ++ "\x27, \x27" ++
    lockModeText ++ "\x27);"

/-- One remote or local action of the distributed lock orderer. -/
inductive LockEvent
  | remoteSendCommand (node : WorkerNode) (command : String)
  | localLockRelation (relationId : Oid) (mode : LockMode)
  deriving DecidableEq, Repr

/-- AcquireDistributedLockOnRelations (tablecmds.c): sorts the relation
id list and the worker node list (the result of ActivePrimaryNodeList,
passed here as an argument), then for every metadata-synced relation
issues the lock command to every worker in that fixed nested order,
taking the lock in-process for a worker of the local group. -/
def AcquireDistributedLockOnRelations (cat : Catalog) (workerNodeList : List WorkerNode)
    (relationIdList : List Oid) (lockMode : LockMode) : List LockEvent :=
  let lockModeText := lockModeToLockModeText lockMode
  let rels := List.insertionSort (fun a b => a ≤ b) relationIdList
  let workers := List.insertionSort workerLe workerNodeList
  rels.flatMap (fun relationId =>
    if cat.shouldSyncTableMetadata relationId then
      workers.map (fun w =>
        if w.groupId = cat.localGroupId then
          LockEvent.localLockRelation relationId lockMode
        else
          LockEvent.remoteSendCommand w
            (lockRelationIfExistsCommand (cat.qualifiedRelationName relationId) lockModeText))
    else [])

/-! ### ALTER TABLE planning -/

/-- RangeVarGetRelid (PostgreSQL, external): the stored resolution
result is returned; 0 stands for a missing relation, which is an error
unless missing_ok is set. -/
def rangeVarGetRelid (storedId : Oid) (missingOk : Bool) : Except CitusError Oid :=
  if storedId ≠ 0 then .ok storedId
  else if missingOk then .ok 0
  else .error .relationDoesNotExist

/-- Effect of one subcommand on the rightRelationId variable of
PlanAlterTableStmt: keep the current value, set it to a resolved
relation, or return NIL from the whole function early (ATTACH PARTITION
of a non-distributed partition). -/
inductive RightStep
  | keep
  | setRight (rid : Oid)
  | nilEarly
  deriving DecidableEq, Repr

/-- The right-relation part of the foreach body of PlanAlterTableStmt:
ADD CONSTRAINT ... FOREIGN KEY and ADD COLUMN with a foreign column
constraint resolve the referenced table (honoring missing_ok); ATTACH
PARTITION resolves the partition and returns NIL early when it is not
distributed; DETACH PARTITION resolves the partition. -/
def planAlterCmdRightStep (cat : Catalog) (stmt : AlterTableStmtModel)
    (command : AlterTableCmd) : Except CitusError RightStep :=
  match command.subtype with
  | .addConstraint =>
    match command.defConstraint with
    | some c =>
      if c.contype = .foreign then
        match rangeVarGetRelid c.pktableId stmt.missingOk with
        | .error e => .error e
        | .ok rid => .ok (.setRight rid)
      else .ok .keep
    | Option.none => .ok .keep
  | .addColumn =>
    match command.defColumn with
    | some col =>
      match col.constraints.find? (fun c => c.contype == .foreign) with
      | some c =>
        match rangeVarGetRelid c.pktableId stmt.missingOk with
        | .error e => .error e
        | .ok rid => .ok (.setRight rid)
      | Option.none => .ok .keep
    | Option.none => .ok .keep
  | .attachPartition =>
    match rangeVarGetRelid command.defPartitionId false with
    | .error e => .error e
    | .ok rid =>
      if cat.isDistributedTable rid = false then .ok .nilEarly
      else .ok (.setRight rid)
  | .detachPartition =>
    match rangeVarGetRelid command.defPartitionId false with
    | .error e => .error e
    | .ok rid => .ok (.setRight rid)
  | _ => .ok .keep

/-- Outcome of the foreach loop of PlanAlterTableStmt. -/
inductive PlanLoopOutcome
  | nilReturn (tx : TxState)
  | done (rightRelationId : Oid) (executeSequentially : Bool) (tx : TxState)
  deriving DecidableEq, Repr

/-- The foreach loop of PlanAlterTableStmt: per subcommand, compute the
right-relation effect, then run SetupExecutionModeForAlterTable and
accumulate the sequential flag. -/
def planAlterCmdsLoop (cat : Catalog) (stmt : AlterTableStmtModel) (leftRelationId : Oid) :
    TxState → Oid → Bool → List AlterTableCmd → Except CitusError PlanLoopOutcome
  | tx, right, seq, [] => .ok (.done right seq tx)
  | tx, right, seq, command :: rest =>
    match planAlterCmdRightStep cat stmt command with
    | .error e => .error e
    | .ok .nilEarly => .ok (.nilReturn tx)
    | .ok .keep =>
      match SetupExecutionModeForAlterTable cat tx leftRelationId command with
      | .error e => .error e
      | .ok (flag, tx2) =>
        planAlterCmdsLoop cat stmt leftRelationId tx2 right (seq || flag) rest
    | .ok (.setRight rid) =>
      match SetupExecutionModeForAlterTable cat tx leftRelationId command with
      | .error e => .error e
      | .ok (flag, tx2) =>
        planAlterCmdsLoop cat stmt leftRelationId tx2 rid (seq || flag) rest

/-- PlanAlterTableStmt (utility_hook.c): classification (distributed or
not, index relations resolved to their table), validation, the
subcommand loop, and finally the DDL job whose task list is the
inter-shard list when a distributed right relation was resolved, the
empty list when the right relation is not distributed, and the plain
per-shard list otherwise. The in-place skip_validation mutation of the
parse tree only affects the local execution by the external storage
engine and is not modelled. -/
def PlanAlterTableStmt (cat : Catalog) (tx : TxState) (stmt : AlterTableStmtModel)
    (alterTableCommand : String) : Except CitusError (List DDLJob × TxState) :=
  if stmt.relationPresent = false then .ok ([], tx)
  else if stmt.relationId = 0 then .ok ([], tx)
  else
    let leftRelationId := if cat.relKind stmt.relationId = .index then
      cat.indexGetRelation stmt.relationId else stmt.relationId
    if cat.isDistributedTable leftRelationId = false then .ok ([], tx)
    else
      match (if cat.relKind stmt.relationId = .index then
          (ErrorIfUnsupportedAlterIndexStmt stmt).map (fun _ => ([] : List ValidatorEffect))
        else ErrorIfUnsupportedAlterTableStmt cat stmt) with
      | .error e => .error e
      | .ok _ =>
        match planAlterCmdsLoop cat stmt leftRelationId tx 0 false stmt.cmds with
        | .error e => .error e
        | .ok (.nilReturn tx2) => .ok ([], tx2)
        | .ok (.done rightRelationId executeSequentially tx2) =>
          let taskList :=
            if rightRelationId ≠ 0 then
              if cat.isDistributedTable rightRelationId = false then ([] : List Task)
              else (InterShardDDLTaskList cat leftRelationId rightRelationId alterTableCommand).1
            else (DDLTaskList cat leftRelationId alterTableCommand).1
          .ok ([{ targetRelationId := leftRelationId
                  concurrentIndexCmd := false
                  commandString := alterTableCommand
                  executeSequentially := executeSequentially
                  taskList := taskList }], tx2)

/-- Witness constraint: a FOREIGN KEY whose referenced table 5 exists
but is not distributed. -/
def witnessFKConstraint : ConstraintModel :=
  { contype := .foreign, conname := some "fk_orders_w", pktableId := 5 }

/-- Witness subcommand: ADD CONSTRAINT fk_orders_w FOREIGN KEY. -/
def witnessAddFKCmd : AlterTableCmd :=
  { subtype := .addConstraint
    name := Option.none
    defColumn := Option.none
    defConstraint := some witnessFKConstraint
    defPartitionId := 0 }

/-- Witness statement: the sole ADD CONSTRAINT FK subcommand on the
distributed relation 1. -/
def witnessStmtAddFK : AlterTableStmtModel :=
  { relationPresent := true
    relationId := 1
    missingOk := false
    cmds := [witnessAddFKCmd] }

/-- Witness subcommand: ATTACH PARTITION of the existing
non-distributed relation 5. -/
def witnessAttachPartitionCmd : AlterTableCmd :=
  { subtype := .attachPartition
    name := Option.none
    defColumn := Option.none
    defConstraint := Option.none
    defPartitionId := 5 }

/-- Witness statement: the sole ATTACH PARTITION subcommand on the
distributed relation 1. -/
def witnessStmtAttach : AlterTableStmtModel :=
  { relationPresent := true
    relationId := 1
    missingOk := false
    cmds := [witnessAttachPartitionCmd] }

/-- Witness worker node in the local group 0. -/
def witnessNodeLocal : WorkerNode :=
  { groupId := 0, nodeName := "w1", nodePort := 5432 }

/-- Witness worker node in the remote group 1. -/
def witnessNodeRemote : WorkerNode :=
  { groupId := 1, nodeName := "w2", nodePort := 5432 }

/-- Witness job: a CONCURRENTLY index build on relation 1. -/
def witnessConcurrentIndexJob : DDLJob :=
  { targetRelationId := 1
    concurrentIndexCmd := true
    commandString := "CREATE INDEX CONCURRENTLY orders_idx ON orders (v)"
    executeSequentially := false
    taskList := [] }

/-- Concrete catalog used by witnesses: relation 1 is a hash-distributed
table with two shards 101 and 102, relation 2 a reference table with the
single shard 201, both in the schema public. -/
def witnessCatalogA : Catalog where
  loadShardIntervalList := fun r => if r = 1 then [⟨101⟩, ⟨102⟩] else if r = 2 then [⟨201⟩] else []
  namespaceName := fun _ => "public"
  finalizedShardPlacementList := fun s => [⟨s, "w1", 5432⟩]
  partitionMethod := fun r => if r = 1 then .hash else .none
  isDistributedTable := fun r => r = 1 || r = 2
  distPartitionKey := fun r => if r = 1 then some 1 else none
  attributeNumber := fun _ _ => none
  relKind := fun _ => .table
  indexGetRelation := fun r => r
  tablesColocated := fun _ _ => false
  relationIndexList := fun _ => []
  operatorImplementsEquality := fun _ => false
  relationName := fun _ => "orders"
  qualifiedRelationName := fun _ => "public.orders"
  shouldSyncTableMetadata := fun _ => false
  localGroupId := 0
  constraintIsForeignKey := fun _ _ => false
  constraintIsFKToReferenceTable := fun _ _ => false
  columnAppearsInFKToReferenceTable := fun _ _ => false
  tableReferenced := fun _ => false
  foreignConstraintCheckPasses := fun _ => true

/-- Concrete catalog used by witnesses for the execution-mode claims:
like witnessCatalogA, but the constraint fk1 of relation 1 is a foreign
key to a reference table, column c1 of relation 1 participates in such a
foreign key, and the reference table 2 is referenced through a foreign
key by a hash-distributed table. -/
def witnessCatalogB : Catalog :=
  { witnessCatalogA with
    constraintIsFKToReferenceTable := fun n r => n = "fk1" && r = 1
    columnAppearsInFKToReferenceTable := fun n r => n = "c1" && r = 1
    tableReferenced := fun r => r = 2 }

/-- Witness subcommand: ALTER TABLE ... DROP CONSTRAINT fk1. -/
def witnessDropConstraintCmd : AlterTableCmd :=
  { subtype := .dropConstraint
    name := some "fk1"
    defColumn := Option.none
    defConstraint := Option.none
    defPartitionId := 0 }

/-- A transaction state with no prior activity. -/
def txIdle : TxState :=
  { isTransactionBlock := false
    parallelQueryExecuted := false
    multiShardModifyModeSequential := false }

/-- A transaction state in which a parallel shard query already ran. -/
def txAfterParallel : TxState :=
  { isTransactionBlock := true
    parallelQueryExecuted := true
    multiShardModifyModeSequential := false }

/-- Concrete catalog for the constraint-validation claims: relation 3 is
append-distributed with distribution column 1 and carries one unique
index over attribute 2 only (not covering the distribution column). -/
def witnessCatalogC : Catalog :=
  { witnessCatalogA with
    partitionMethod := fun r => if r = 3 then .append else if r = 1 then .hash else .none
    isDistributedTable := fun r => r = 1 || r = 2 || r = 3
    distPartitionKey := fun r => if r = 1 || r = 3 then some 1 else Option.none
    relationIndexList := fun r => if r = 3 then [⟨true, [2], Option.none⟩] else []
    relationName := fun _ => "events" }

/-- Concrete catalog for the distribution-column claims: like
witnessCatalogA, and column customer_id of relation 1 is attribute 1,
which is the distribution column of relation 1. -/
def witnessCatalogD : Catalog :=
  { witnessCatalogA with
    attributeNumber := fun r n => if r = 1 && n = "customer_id" then some 1 else Option.none }

/-- Concrete catalog whose relation 1 mirrors metadata to MX workers. -/
def witnessCatalogMX : Catalog :=
  { witnessCatalogA with shouldSyncTableMetadata := fun r => r = 1 }

/-- Witness subcommand: ADD CONSTRAINT orders_pkey PRIMARY KEY. -/
def witnessAddConstraintCmd : AlterTableCmd :=
  { subtype := .addConstraint
    name := Option.none
    defColumn := Option.none
    defConstraint := some ⟨.primary, some "orders_pkey", 0⟩
    defPartitionId := 0 }

/-- Witness subcommand: SET NOT NULL on some column. -/
def witnessSetNotNullCmd : AlterTableCmd :=
  { subtype := .setNotNull
    name := some "c"
    defColumn := Option.none
    defConstraint := Option.none
    defPartitionId := 0 }

/-- Witness statement: ADD CONSTRAINT combined with a second
subcommand. -/
def witnessStmtTwoCmds : AlterTableStmtModel :=
  { relationPresent := true
    relationId := 1
    missingOk := false
    cmds := [witnessAddConstraintCmd, witnessSetNotNullCmd] }

/-- Witness statement: ADD CONSTRAINT as the sole subcommand. -/
def witnessStmtSingleAdd : AlterTableStmtModel :=
  { relationPresent := true
    relationId := 1
    missingOk := false
    cmds := [witnessAddConstraintCmd] }

/-- Witness subcommand: DROP COLUMN customer_id. -/
def witnessDropColumnCmd : AlterTableCmd :=
  { subtype := .dropColumn
    name := some "customer_id"
    defColumn := Option.none
    defConstraint := Option.none
    defPartitionId := 0 }

/-- Witness statement: DROP COLUMN customer_id on the hash-distributed
relation 1. -/
def witnessStmtDropCol : AlterTableStmtModel :=
  { relationPresent := true
    relationId := 1
    missingOk := false
    cmds := [witnessDropColumnCmd] }

/-- Witness statement: DROP COLUMN customer_id on the reference table 2
(which has no distribution column). -/
def witnessStmtDropColRef : AlterTableStmtModel :=
  { relationPresent := true
    relationId := 2
    missingOk := false
    cmds := [witnessDropColumnCmd] }

end Citus

/-! ## Theorems -/

namespace Citus

lemma ddlTasksLoop_length (cat : Catalog) (s c : String) :
    ∀ (shards : List ShardInterval) (t0 : Nat),
      (ddlTasksLoop cat s c t0 shards).length = shards.length := by
  intro shards
  induction shards with
  | nil => intro t0; rfl
  | cons si rest ih =>
    intro t0
    simp [ddlTasksLoop, ih]

lemma ddlTasksLoop_taskIds (cat : Catalog) (s c : String) :
    ∀ (shards : List ShardInterval) (t0 : Nat),
      (ddlTasksLoop cat s c t0 shards).map (·.taskId) = List.range' t0 shards.length := by
  intro shards
  induction shards with
  | nil => intro t0; rfl
  | cons si rest ih =>
    intro t0
    simp [ddlTasksLoop, ih, List.range'_succ]

lemma ddlTasksLoop_anchors (cat : Catalog) (s c : String) :
    ∀ (shards : List ShardInterval) (t0 : Nat),
      (ddlTasksLoop cat s c t0 shards).map (·.anchorShardId) = shards.map (·.shardId) := by
  intro shards
  induction shards with
  | nil => intro t0; rfl
  | cons si rest ih =>
    intro t0
    simp [ddlTasksLoop, ih]

lemma ddlTasksLoop_content (cat : Catalog) (s c : String) :
    ∀ (shards : List ShardInterval) (t0 : Nat) (t : Task),
      t ∈ ddlTasksLoop cat s c t0 shards →
        t.queryString = workerApplyShardDDLCommand t.anchorShardId s c ∧
        t.taskPlacementList = cat.finalizedShardPlacementList t.anchorShardId := by
  intro shards
  induction shards with
  | nil => intro t0 t ht; cases ht
  | cons si rest ih =>
    intro t0 t ht
    rcases List.mem_cons.mp ht with h | h
    · subst h
      exact ⟨rfl, rfl⟩
    · exact ih (t0 + 1) t h

end Citus

/-- Claim C1: for every distributed relation, the single-relation DDL
task list has exactly one task per shard interval, in shard-interval
order with task ids 1..N, each task rendering the shard-apply wrapper
over the original command with that shard id and the escaped schema
name, each carrying the finalized placement list of its shard, and the
shared shard-metadata lock event precedes every placement lookup in the
catalog-interaction trace. -/
theorem DDLTaskList_matches_spec (cat : Citus.Catalog) (relationId : Citus.Oid)
    (commandString : String) :
    ((Citus.DDLTaskList cat relationId commandString).1.length =
        (cat.loadShardIntervalList relationId).length) ∧
    ((Citus.DDLTaskList cat relationId commandString).1.map (·.anchorShardId) =
        (cat.loadShardIntervalList relationId).map (·.shardId)) ∧
    ((Citus.DDLTaskList cat relationId commandString).1.map (·.taskId) =
        List.range' 1 (cat.loadShardIntervalList relationId).length) ∧
    (∀ t ∈ (Citus.DDLTaskList cat relationId commandString).1,
        t.queryString = Citus.workerApplyShardDDLCommand t.anchorShardId
            (Citus.quoteLiteralCstr (cat.namespaceName relationId))
            (Citus.quoteLiteralCstr commandString) ∧
        t.taskPlacementList = cat.finalizedShardPlacementList t.anchorShardId) ∧
    ((Citus.DDLTaskList cat relationId commandString).2 =
        Citus.BuildEvent.lockShardListMetadata
            ((cat.loadShardIntervalList relationId).map (·.shardId)) .share ::
          (cat.loadShardIntervalList relationId).map
            (fun si => Citus.BuildEvent.placementLookup si.shardId)) := by
  refine ⟨?_, ?_, ?_, ?_, ?_⟩
  · exact Citus.ddlTasksLoop_length cat _ _ _ 1
  · exact Citus.ddlTasksLoop_anchors cat _ _ _ 1
  · exact Citus.ddlTasksLoop_taskIds cat _ _ _ 1
  · intro t ht
    exact Citus.ddlTasksLoop_content cat _ _ _ 1 t ht
  · rfl

/-- Witness for claim C1: the theorem instantiated at a concrete
two-shard catalog. -/
theorem DDLTaskList_matches_spec_witness :
    ((Citus.DDLTaskList Citus.witnessCatalogA 1 "ALTER TABLE orders ADD COLUMN v int").1.length =
        (Citus.witnessCatalogA.loadShardIntervalList 1).length) ∧
    ((Citus.DDLTaskList Citus.witnessCatalogA 1 "ALTER TABLE orders ADD COLUMN v int").1.map (·.anchorShardId) =
        (Citus.witnessCatalogA.loadShardIntervalList 1).map (·.shardId)) ∧
    ((Citus.DDLTaskList Citus.witnessCatalogA 1 "ALTER TABLE orders ADD COLUMN v int").1.map (·.taskId) =
        List.range' 1 (Citus.witnessCatalogA.loadShardIntervalList 1).length) ∧
    (∀ t ∈ (Citus.DDLTaskList Citus.witnessCatalogA 1 "ALTER TABLE orders ADD COLUMN v int").1,
        t.queryString = Citus.workerApplyShardDDLCommand t.anchorShardId
            (Citus.quoteLiteralCstr (Citus.witnessCatalogA.namespaceName 1))
            (Citus.quoteLiteralCstr "ALTER TABLE orders ADD COLUMN v int") ∧
        t.taskPlacementList = Citus.witnessCatalogA.finalizedShardPlacementList t.anchorShardId) ∧
    ((Citus.DDLTaskList Citus.witnessCatalogA 1 "ALTER TABLE orders ADD COLUMN v int").2 =
        Citus.BuildEvent.lockShardListMetadata
            ((Citus.witnessCatalogA.loadShardIntervalList 1).map (·.shardId)) .share ::
          (Citus.witnessCatalogA.loadShardIntervalList 1).map
            (fun si => Citus.BuildEvent.placementLookup si.shardId)) :=
  DDLTaskList_matches_spec Citus.witnessCatalogA 1 "ALTER TABLE orders ADD COLUMN v int"

namespace Citus

lemma interShardTasksLoop_broadcast (cat : Catalog) (leftRel rightRel : Oid)
    (sl sr sc : String) (r : ShardInterval) :
    ∀ (ls : List ShardInterval) (n t0 : Nat), ls.length ≤ n + 1 →
      ((interShardTasksLoop cat leftRel rightRel sl sr sc t0 ls
          (r :: List.replicate n r)).length = ls.length) ∧
      ((interShardTasksLoop cat leftRel rightRel sl sr sc t0 ls
          (r :: List.replicate n r)).map (·.anchorShardId) = ls.map (·.shardId)) ∧
      (∀ t ∈ interShardTasksLoop cat leftRel rightRel sl sr sc t0 ls
          (r :: List.replicate n r),
        t.relationShardList = [⟨leftRel, t.anchorShardId⟩, ⟨rightRel, r.shardId⟩] ∧
        t.queryString = workerApplyInterShardDDLCommand t.anchorShardId sl r.shardId sr sc) := by
  intro ls
  induction ls with
  | nil =>
    intro n t0 h
    refine ⟨rfl, rfl, ?_⟩
    intro t ht
    cases ht
  | cons l ls2 ih =>
    intro n t0 h
    cases n with
    | zero =>
      have hnil : ls2 = [] := List.length_eq_zero.mp (Nat.le_zero.mp (Nat.lt_succ_iff.mp h))
      subst hnil
      refine ⟨rfl, rfl, ?_⟩
      intro t ht
      rcases List.mem_cons.mp ht with hh | hh
      · subst hh
        exact ⟨rfl, rfl⟩
      · simp [interShardTasksLoop, List.replicate] at hh
    | succ m =>
      have h2 : ls2.length ≤ m + 1 := Nat.lt_succ_iff.mp (Nat.lt_succ_iff.mp (by simpa using Nat.lt_succ_of_le h))
      have h2' : ls2.length ≤ m + 1 := by
        have := h
        simpa [Nat.succ_le_succ_iff] using this
      obtain ⟨ihl, iha, ihc⟩ := ih m (t0 + 1) h2'
      refine ⟨?_, ?_, ?_⟩
      · simpa [interShardTasksLoop, List.replicate_succ] using ihl
      · simpa [interShardTasksLoop, List.replicate_succ] using iha
      · intro t ht
        rw [List.replicate_succ] at ht
        rcases List.mem_cons.mp ht with hh | hh
        · subst hh
          exact ⟨rfl, rfl⟩
        · exact ihc t hh

end Citus

/-- Claim C2: when the right relation of InterShardDDLTaskList is a
reference table (distribution method none, a single shard interval r),
the task list has exactly one task per left shard, in left shard order,
every task names r as the right-side shard both in the rendered command
and in its explicit (relation, shard) descriptor pair, and the
descriptor pair lists the left and right sides explicitly. -/
theorem InterShardDDLTaskList_reference_broadcast (cat : Citus.Catalog)
    (leftRelationId rightRelationId : Citus.Oid) (commandString : String)
    (r : Citus.ShardInterval)
    (hm : cat.partitionMethod rightRelationId = .none)
    (hr : cat.loadShardIntervalList rightRelationId = [r]) :
    ((Citus.InterShardDDLTaskList cat leftRelationId rightRelationId commandString).1.length =
        (cat.loadShardIntervalList leftRelationId).length) ∧
    ((Citus.InterShardDDLTaskList cat leftRelationId rightRelationId commandString).1.map
        (·.anchorShardId) = (cat.loadShardIntervalList leftRelationId).map (·.shardId)) ∧
    (∀ t ∈ (Citus.InterShardDDLTaskList cat leftRelationId rightRelationId commandString).1,
        t.relationShardList =
          [⟨leftRelationId, t.anchorShardId⟩, ⟨rightRelationId, r.shardId⟩] ∧
        t.queryString = Citus.workerApplyInterShardDDLCommand t.anchorShardId
          (Citus.quoteLiteralCstr (cat.namespaceName leftRelationId)) r.shardId
          (Citus.quoteLiteralCstr (cat.namespaceName rightRelationId))
          (Citus.quoteLiteralCstr commandString)) := by
  have hlen : (cat.loadShardIntervalList leftRelationId).length ≤
      ((cat.loadShardIntervalList leftRelationId).length - 1) + 1 := by
    cases h : (cat.loadShardIntervalList leftRelationId).length with
    | zero => simp
    | succ k => simp
  have key := Citus.interShardTasksLoop_broadcast cat leftRelationId rightRelationId
    (Citus.quoteLiteralCstr (cat.namespaceName leftRelationId))
    (Citus.quoteLiteralCstr (cat.namespaceName rightRelationId))
    (Citus.quoteLiteralCstr commandString) r
    (cat.loadShardIntervalList leftRelationId)
    ((cat.loadShardIntervalList leftRelationId).length - 1) 1 hlen
  have hbr : Citus.broadcastReferenceShard [r] (cat.loadShardIntervalList leftRelationId).length =
      r :: List.replicate ((cat.loadShardIntervalList leftRelationId).length - 1) r := by
    simp [Citus.broadcastReferenceShard]
  simpa [Citus.InterShardDDLTaskList, hm, hr, hbr] using key

/-- Witness for claim C2: relation 1 (two shards) with the reference
table 2 (single shard 201) in the concrete witness catalog. -/
theorem InterShardDDLTaskList_reference_broadcast_witness :
    (Citus.witnessCatalogA.partitionMethod 2 = .none) ∧
    (Citus.witnessCatalogA.loadShardIntervalList 2 = [⟨201⟩]) ∧
    ((Citus.InterShardDDLTaskList Citus.witnessCatalogA 1 2 "ALTER TABLE orders ADD CONSTRAINT fk1 FOREIGN KEY (w) REFERENCES warehouses (id)").1.length =
        (Citus.witnessCatalogA.loadShardIntervalList 1).length) ∧
    (∀ t ∈ (Citus.InterShardDDLTaskList Citus.witnessCatalogA 1 2 "ALTER TABLE orders ADD CONSTRAINT fk1 FOREIGN KEY (w) REFERENCES warehouses (id)").1,
        t.relationShardList = [⟨1, t.anchorShardId⟩, ⟨2, (201 : Nat)⟩]) := by
  have h := InterShardDDLTaskList_reference_broadcast Citus.witnessCatalogA 1 2
    "ALTER TABLE orders ADD CONSTRAINT fk1 FOREIGN KEY (w) REFERENCES warehouses (id)"
    ⟨201⟩ (by rfl) (by rfl)
  exact ⟨rfl, rfl, h.1, fun t ht => (h.2.2 t ht).1⟩

namespace Citus

lemma alterTableSequentialFlag_iff (cat : Catalog) (tx : TxState) (relationId : Oid)
    (command : AlterTableCmd) :
    (alterTableSequentialFlag cat tx relationId command).1 = true ↔
      RequiresSequentialAlter cat relationId command := by
  obtain ⟨sub, nm, dc, dk, dp⟩ := command
  cases sub
  case addColumn =>
    cases dc with
    | none => simp [alterTableSequentialFlag, RequiresSequentialAlter]
    | some col =>
      simp [alterTableSequentialFlag, RequiresSequentialAlter, List.any_eq_true,
        Bool.and_eq_true, and_assoc]
  case alterColumnType =>
    by_cases hcol : cat.columnAppearsInFKToReferenceTable (nm.getD "") relationId = true
    · simp [alterTableSequentialFlag, RequiresSequentialAlter, hcol]
    · rw [Bool.not_eq_true] at hcol
      simp [alterTableSequentialFlag, RequiresSequentialAlter, hcol]
  case addConstraint =>
    cases dk with
    | none => simp [alterTableSequentialFlag, RequiresSequentialAlter]
    | some c =>
      simp [alterTableSequentialFlag, RequiresSequentialAlter, Bool.and_eq_true, and_assoc]
  all_goals simp [alterTableSequentialFlag, RequiresSequentialAlter]

end Citus

/-- Claim C3: the sequential-execution decision is exact. For ALTER
TABLE, whenever SetupExecutionModeForAlterTable returns normally, the
returned flag is true exactly when the subcommand drops or type-alters a
column participating in a foreign key to a reference table, or adds or
drops a foreign-key constraint whose referenced side is a reference
table; for all other subcommand tags it is false. For TRUNCATE, starting
from a transaction not yet in sequential mode, the mode is switched to
sequential exactly when some truncated relation is a reference table
(distributed, method none) referenced through a foreign key by a
hash-distributed table. -/
theorem sequential_mode_characterization :
    (∀ (cat : Citus.Catalog) (tx : Citus.TxState) (relationId : Citus.Oid)
        (command : Citus.AlterTableCmd) (flag : Bool) (tx2 : Citus.TxState),
      Citus.SetupExecutionModeForAlterTable cat tx relationId command = .ok (flag, tx2) →
      (flag = true ↔ Citus.RequiresSequentialAlter cat relationId command)) ∧
    (∀ (cat : Citus.Catalog) (tx : Citus.TxState) (relationIds : List Citus.Oid),
      tx.multiShardModifyModeSequential = false →
      ((Citus.ExecuteTruncateStmtSequentialIfNecessary cat tx relationIds).multiShardModifyModeSequential = true ↔
        ∃ relId ∈ relationIds, cat.isDistributedTable relId = true ∧
          cat.partitionMethod relId = .none ∧ cat.tableReferenced relId = true)) := by
  constructor
  · intro cat tx relationId command flag tx2 h
    unfold Citus.SetupExecutionModeForAlterTable at h
    split at h
    · cases h
    · injection h with h2
      have hf : (Citus.alterTableSequentialFlag cat tx relationId command).1 = flag :=
        congrArg Prod.fst h2
      rw [← hf]
      exact Citus.alterTableSequentialFlag_iff cat tx relationId command
  · intro cat tx relationIds hseq
    induction relationIds with
    | nil =>
      simp [Citus.ExecuteTruncateStmtSequentialIfNecessary, hseq]
    | cons relId rest ih =>
      by_cases hc : cat.isDistributedTable relId = true ∧
          cat.partitionMethod relId = .none ∧ cat.tableReferenced relId = true
      · obtain ⟨h1, h2, h3⟩ := hc
        have hcond : (cat.isDistributedTable relId &&
            (cat.partitionMethod relId == Citus.DistributionMethod.none) &&
            cat.tableReferenced relId) = true := by
          simp [h1, h2, h3]
        simp only [Citus.ExecuteTruncateStmtSequentialIfNecessary]
        rw [if_pos hcond]
        constructor
        · intro _
          exact ⟨relId, List.mem_cons_self relId rest, h1, h2, h3⟩
        · intro _
          rfl
      · have hcond : ¬((cat.isDistributedTable relId &&
            (cat.partitionMethod relId == Citus.DistributionMethod.none) &&
            cat.tableReferenced relId) = true) := by
          intro hcontra
          apply hc
          simp [Bool.and_eq_true] at hcontra
          exact ⟨hcontra.1.1, by simpa using hcontra.1.2, hcontra.2⟩
        simp only [Citus.ExecuteTruncateStmtSequentialIfNecessary]
        rw [if_neg hcond, ih]
        constructor
        · rintro ⟨x, hx, hp⟩
          exact ⟨x, List.mem_cons_of_mem _ hx, hp⟩
        · rintro ⟨x, hx, hp⟩
          rcases List.mem_cons.mp hx with hh | hh
          · subst hh
            exact absurd hp hc
          · exact ⟨x, hh, hp⟩

/-- Witness for claim C3: DROP CONSTRAINT fk1 on relation 1 in the
witness catalog yields the flag true, matching the condition; and
TRUNCATE of the referenced reference table 2 switches to sequential. -/
theorem sequential_mode_characterization_witness :
    ((true = true) ↔ Citus.RequiresSequentialAlter Citus.witnessCatalogB 1 Citus.witnessDropConstraintCmd) ∧
    ((Citus.ExecuteTruncateStmtSequentialIfNecessary Citus.witnessCatalogB Citus.txIdle [2]).multiShardModifyModeSequential = true ↔
      ∃ relId ∈ [(2 : Citus.Oid)], Citus.witnessCatalogB.isDistributedTable relId = true ∧
        Citus.witnessCatalogB.partitionMethod relId = .none ∧
        Citus.witnessCatalogB.tableReferenced relId = true) :=
  ⟨sequential_mode_characterization.1 Citus.witnessCatalogB Citus.txIdle 1
      Citus.witnessDropConstraintCmd true Citus.txIdle rfl,
    sequential_mode_characterization.2 Citus.witnessCatalogB Citus.txIdle [2] rfl⟩

/-- Claim C4: if the subcommand requires sequential mode, the target
relation is distributed and not a reference table, and a parallel shard
query already ran in the current transaction, then
SetupExecutionModeForAlterTable raises the conflicting-execution-mode
error carrying the hint to set sequential mode explicitly, instead of
returning a downgraded mode. -/
theorem conflicting_execution_mode_error (cat : Citus.Catalog) (tx : Citus.TxState)
    (relationId : Citus.Oid) (command : Citus.AlterTableCmd)
    (hreq : Citus.RequiresSequentialAlter cat relationId command)
    (hdist : cat.isDistributedTable relationId = true)
    (hmeth : cat.partitionMethod relationId ≠ .none)
    (hpar : tx.parallelQueryExecuted = true) :
    Citus.SetupExecutionModeForAlterTable cat tx relationId command =
      .error (.conflictingExecutionMode (cat.relationName relationId) Citus.conflictingModeHint) := by
  have hflag : (Citus.alterTableSequentialFlag cat tx relationId command).1 = true :=
    (Citus.alterTableSequentialFlag_iff cat tx relationId command).mpr hreq
  have hbeq : (cat.partitionMethod relationId == Citus.DistributionMethod.none) = false := by
    simpa using hmeth
  have hcond : ((Citus.alterTableSequentialFlag cat tx relationId command).1 &&
      cat.isDistributedTable relationId &&
      !(cat.partitionMethod relationId == Citus.DistributionMethod.none) &&
      tx.parallelQueryExecuted) = true := by
    simp [hflag, hdist, hpar, hbeq]
  unfold Citus.SetupExecutionModeForAlterTable
  rw [if_pos hcond]

/-- Witness for claim C4: DROP CONSTRAINT fk1 on the hash-distributed
relation 1 after a parallel query errors out. -/
theorem conflicting_execution_mode_error_witness :
    Citus.SetupExecutionModeForAlterTable Citus.witnessCatalogB Citus.txAfterParallel 1
        Citus.witnessDropConstraintCmd =
      .error (.conflictingExecutionMode (Citus.witnessCatalogB.relationName 1)
        Citus.conflictingModeHint) :=
  conflicting_execution_mode_error Citus.witnessCatalogB Citus.txAfterParallel 1
    Citus.witnessDropConstraintCmd (Or.inr (Or.inl ⟨rfl, rfl⟩)) rfl
    (by decide) rfl

namespace Citus

lemma alterTableCmdCheck_ne_stop (cat : Catalog) (stmt : AlterTableStmtModel)
    (cmd : AlterTableCmd) (h0 : stmt.relationId ≠ 0) :
    alterTableCmdCheck cat stmt cmd ≠ .stop := by
  obtain ⟨sub, nm, dc, dk, dp⟩ := cmd
  cases sub <;> simp only [alterTableCmdCheck] <;> repeat' split
  all_goals simp_all

lemma alterLoop_error_of_fail (cat : Catalog) (stmt : AlterTableStmtModel)
    (h0 : stmt.relationId ≠ 0) :
    ∀ (cmds : List AlterTableCmd) (cmd : AlterTableCmd), cmd ∈ cmds →
      (∃ e, alterTableCmdCheck cat stmt cmd = .fail e) →
      ∃ e, errorIfUnsupportedAlterTableLoop cat stmt cmds = .error e := by
  intro cmds
  induction cmds with
  | nil =>
    intro cmd h
    cases h
  | cons c rest ih =>
    intro cmd hmem hfail
    rcases List.mem_cons.mp hmem with hh | hh
    · subst hh
      obtain ⟨e, he⟩ := hfail
      exact ⟨e, by simp [errorIfUnsupportedAlterTableLoop, he]⟩
    · cases hcheck : alterTableCmdCheck cat stmt c with
      | fail e => exact ⟨e, by simp [errorIfUnsupportedAlterTableLoop, hcheck]⟩
      | stop => exact absurd hcheck (alterTableCmdCheck_ne_stop cat stmt c h0)
      | proceed effs =>
        obtain ⟨e, he⟩ := ih cmd hh hfail
        exact ⟨e, by simp [errorIfUnsupportedAlterTableLoop, hcheck, he]⟩

lemma alterInvolves_of_no_key (cat : Catalog) (stmt : AlterTableStmtModel)
    (cmd : AlterTableCmd) (h : cat.distPartitionKey stmt.relationId = Option.none) :
    AlterInvolvesPartitionColumn cat stmt cmd = false := by
  unfold AlterInvolvesPartitionColumn
  split
  · rfl
  · rw [h]
    cases cmd.name.bind (cat.attributeNumber stmt.relationId) <;> rfl

lemma constraintLoop_error (cat : Catalog) (relName : String)
    (method : DistributionMethod) (distCol : Option Nat) :
    ∀ (idxs : List IndexModel),
      (∃ idx ∈ idxs, relevantIndex idx = true ∧
        indexCoversDistributionColumn cat idx distCol = false) →
      (errorIfUnsupportedConstraintLoop cat relName method distCol idxs).2 =
        some .missingDistributionColumn := by
  intro idxs
  induction idxs with
  | nil =>
    rintro ⟨idx, h, _⟩
    cases h
  | cons idx rest ih =>
    rintro ⟨w, hw, hrel, hcov⟩
    rcases List.mem_cons.mp hw with hh | hh
    · subst hh
      simp only [errorIfUnsupportedConstraintLoop]
      rw [if_neg (by simp [hrel])]
      rw [if_neg (by simp [hcov])]
    · by_cases hrel2 : relevantIndex idx = false
      · simp only [errorIfUnsupportedConstraintLoop]
        rw [if_pos hrel2]
        exact ih ⟨w, hh, hrel, hcov⟩
      · simp only [errorIfUnsupportedConstraintLoop]
        rw [if_neg hrel2]
        by_cases hcov2 : indexCoversDistributionColumn cat idx distCol = true
        · rw [if_pos hcov2]
          exact ih ⟨w, hh, hrel, hcov⟩
        · rw [if_neg hcov2]

lemma constraintLoop_ok (cat : Catalog) (relName : String)
    (method : DistributionMethod) (distCol : Option Nat) :
    ∀ (idxs : List IndexModel),
      (∀ idx ∈ idxs, relevantIndex idx = true →
        indexCoversDistributionColumn cat idx distCol = true) →
      (errorIfUnsupportedConstraintLoop cat relName method distCol idxs).2 = Option.none ∧
      (errorIfUnsupportedConstraintLoop cat relName method distCol idxs).1.length =
        (if method = .append then (idxs.filter relevantIndex).length else 0) := by
  intro idxs
  induction idxs with
  | nil =>
    intro _
    simp [errorIfUnsupportedConstraintLoop]
  | cons idx rest ih =>
    intro hgood
    have hrest : ∀ idx2 ∈ rest, relevantIndex idx2 = true →
        indexCoversDistributionColumn cat idx2 distCol = true :=
      fun idx2 h2 => hgood idx2 (List.mem_cons_of_mem _ h2)
    obtain ⟨ih2, ih1⟩ := ih hrest
    by_cases hrel : relevantIndex idx = false
    · simp only [errorIfUnsupportedConstraintLoop]
      rw [if_pos hrel]
      refine ⟨ih2, ?_⟩
      rw [ih1, List.filter_cons_of_neg (by simp [hrel])]
    · have hrelT : relevantIndex idx = true := by
        cases hx : relevantIndex idx
        · exact absurd hx hrel
        · rfl
      have hcov : indexCoversDistributionColumn cat idx distCol = true :=
        hgood idx (List.mem_cons_self idx rest) hrelT
      simp only [errorIfUnsupportedConstraintLoop]
      rw [if_neg hrel, if_pos hcov]
      refine ⟨ih2, ?_⟩
      rw [List.filter_cons_of_pos (by simp [hrelT])]
      by_cases hm : method = DistributionMethod.append
      · subst hm
        rw [if_pos rfl] at ih1
        simp [ih1]
      · rw [if_neg hm] at ih1
        simp [hm, ih1]

end Citus

/-- Claim C5 counterexample: on the append-distributed relation 3, whose
single unique index does not cover the distribution column, the
constraint validator emits the append warning AND the
missing-distribution-column error, whereas the claim states that on
append-distributed tables such constraints produce only a non-fatal
warning rather than an error. -/
theorem append_unique_constraint_counterexample :
    Citus.ErrorIfUnsupportedConstraint Citus.witnessCatalogC 3 .append (some 1) =
      ([.uniqueOnAppendTable "events"], some .missingDistributionColumn) := rfl

/-- Claim C5 (amended): the constraint validator (a) accepts everything
on reference tables (method none) once the delegated foreign-key checks
pass, (b) rejects with the missing-distribution-column error whenever
some unique or exclusion index does not cover the distribution column
(with equality for exclusion), on every non-reference method, append
included, and (c) accepts otherwise, emitting on append-distributed
tables exactly one non-fatal warning per unique or exclusion index (and
none for other methods). -/
theorem constraint_validation_amended :
    (∀ (cat : Citus.Catalog) (relId : Citus.Oid) (distCol : Option Nat),
      cat.foreignConstraintCheckPasses relId = true →
      Citus.ErrorIfUnsupportedConstraint cat relId .none distCol = ([], Option.none)) ∧
    (∀ (cat : Citus.Catalog) (relId : Citus.Oid) (method : Citus.DistributionMethod)
        (distCol : Option Nat),
      method ≠ .none →
      cat.foreignConstraintCheckPasses relId = true →
      (∃ idx ∈ cat.relationIndexList relId, Citus.relevantIndex idx = true ∧
        Citus.indexCoversDistributionColumn cat idx distCol = false) →
      (Citus.ErrorIfUnsupportedConstraint cat relId method distCol).2 =
        some .missingDistributionColumn) ∧
    (∀ (cat : Citus.Catalog) (relId : Citus.Oid) (method : Citus.DistributionMethod)
        (distCol : Option Nat),
      method ≠ .none →
      cat.foreignConstraintCheckPasses relId = true →
      (∀ idx ∈ cat.relationIndexList relId, Citus.relevantIndex idx = true →
        Citus.indexCoversDistributionColumn cat idx distCol = true) →
      (Citus.ErrorIfUnsupportedConstraint cat relId method distCol).2 = Option.none ∧
      (Citus.ErrorIfUnsupportedConstraint cat relId method distCol).1.length =
        (if method = .append then
          ((cat.relationIndexList relId).filter Citus.relevantIndex).length else 0)) := by
  refine ⟨?_, ?_, ?_⟩
  · intro cat relId distCol hfk
    unfold Citus.ErrorIfUnsupportedConstraint
    rw [if_neg (by simp [hfk]), if_pos rfl]
  · intro cat relId method distCol hm hfk hbad
    unfold Citus.ErrorIfUnsupportedConstraint
    rw [if_neg (by simp [hfk]), if_neg hm]
    exact Citus.constraintLoop_error cat (cat.relationName relId) method distCol
      (cat.relationIndexList relId) hbad
  · intro cat relId method distCol hm hfk hgood
    unfold Citus.ErrorIfUnsupportedConstraint
    rw [if_neg (by simp [hfk]), if_neg hm]
    exact Citus.constraintLoop_ok cat (cat.relationName relId) method distCol
      (cat.relationIndexList relId) hgood

/-- Witness for claim C5 (amended): the reference table 2 is exempt, and
the hash-distributed relation 1 (no unique indexes) is accepted without
warnings. -/
theorem constraint_validation_amended_witness :
    (Citus.ErrorIfUnsupportedConstraint Citus.witnessCatalogA 2 .none Option.none =
      ([], Option.none)) ∧
    ((Citus.ErrorIfUnsupportedConstraint Citus.witnessCatalogA 1 .hash (some 1)).2 =
        Option.none ∧
      (Citus.ErrorIfUnsupportedConstraint Citus.witnessCatalogA 1 .hash (some 1)).1.length =
        (if Citus.DistributionMethod.hash = .append then
          ((Citus.witnessCatalogA.relationIndexList 1).filter Citus.relevantIndex).length
          else 0)) :=
  ⟨constraint_validation_amended.1 Citus.witnessCatalogA 2 Option.none rfl,
    constraint_validation_amended.2.2 Citus.witnessCatalogA 1 .hash (some 1)
      (by simp) rfl (by intro idx h; cases h)⟩

/-- Claim C6: on a resolvable relation, an ALTER TABLE whose subcommand
list contains ADD CONSTRAINT, ATTACH PARTITION or DETACH PARTITION
together with at least one other subcommand always fails validation; as
the sole subcommand, an ADD CONSTRAINT with an explicit constraint name
passes the subcommand validator, and when the delegated foreign-key
checks pass and every unique or exclusion index covers the distribution
column, the constraint validator accepts it as well. -/
theorem add_constraint_alone_rule :
    (∀ (cat : Citus.Catalog) (stmt : Citus.AlterTableStmtModel) (cmd : Citus.AlterTableCmd),
      stmt.relationId ≠ 0 →
      cmd ∈ stmt.cmds →
      (cmd.subtype = .addConstraint ∨ cmd.subtype = .attachPartition ∨
        cmd.subtype = .detachPartition) →
      2 ≤ stmt.cmds.length →
      ∃ e, Citus.ErrorIfUnsupportedAlterTableStmt cat stmt = .error e) ∧
    (∀ (cat : Citus.Catalog) (stmt : Citus.AlterTableStmtModel) (cmd : Citus.AlterTableCmd)
        (c : Citus.ConstraintModel) (nm : String),
      stmt.relationId ≠ 0 →
      stmt.cmds = [cmd] →
      cmd.subtype = .addConstraint →
      cmd.defConstraint = some c →
      c.conname = some nm →
      Citus.ErrorIfUnsupportedAlterTableStmt cat stmt = .ok [] ∧
      (cat.foreignConstraintCheckPasses stmt.relationId = true →
        (∀ idx ∈ cat.relationIndexList stmt.relationId, Citus.relevantIndex idx = true →
          Citus.indexCoversDistributionColumn cat idx (cat.distPartitionKey stmt.relationId) = true) →
        (Citus.ErrorIfUnsupportedAlterAddConstraintStmt cat stmt).2 = Option.none)) := by
  constructor
  · intro cat stmt cmd h0 hmem hsub hlen
    have hlen2 : stmt.cmds.length > 1 := by omega
    have hfail : ∃ e, Citus.alterTableCmdCheck cat stmt cmd = .fail e := by
      rcases hsub with h | h | h
      · exact ⟨.addConstraintWithOtherSubcommands,
          by simp only [Citus.alterTableCmdCheck, h]; rw [if_pos hlen2]⟩
      · by_cases hdp : cmd.defPartitionId = 0
        · exact ⟨.relationDoesNotExist,
            by simp only [Citus.alterTableCmdCheck, h]; rw [if_pos hdp]⟩
        · exact ⟨.attachPartitionWithOtherSubcommands,
            by simp only [Citus.alterTableCmdCheck, h]; rw [if_neg hdp, if_pos hlen2]⟩
      · exact ⟨.detachPartitionWithOtherSubcommands,
          by simp only [Citus.alterTableCmdCheck, h]; rw [if_pos hlen2]⟩
    exact Citus.alterLoop_error_of_fail cat stmt h0 stmt.cmds cmd hmem hfail
  · intro cat stmt cmd c nm h0 hcmds hsub hc hn
    constructor
    · have hlen1 : ¬(stmt.cmds.length > 1) := by
        rw [hcmds]
        simp
      unfold Citus.ErrorIfUnsupportedAlterTableStmt
      rw [hcmds]
      simp [Citus.errorIfUnsupportedAlterTableLoop, Citus.alterTableCmdCheck, hsub, hc, hn, hlen1]
    · intro hfk hgood
      unfold Citus.ErrorIfUnsupportedAlterAddConstraintStmt
      by_cases hm : cat.partitionMethod stmt.relationId = .none
      · unfold Citus.ErrorIfUnsupportedConstraint
        rw [if_neg (by simp [hfk]), if_pos hm]
      · unfold Citus.ErrorIfUnsupportedConstraint
        rw [if_neg (by simp [hfk]), if_neg hm]
        exact (Citus.constraintLoop_ok cat (cat.relationName stmt.relationId)
          (cat.partitionMethod stmt.relationId) (cat.distPartitionKey stmt.relationId)
          (cat.relationIndexList stmt.relationId) hgood).1

/-- Witness for claim C6: ADD CONSTRAINT orders_pkey combined with SET
NOT NULL fails; alone, it passes both validators in the witness
catalog. -/
theorem add_constraint_alone_rule_witness :
    (∃ e, Citus.ErrorIfUnsupportedAlterTableStmt Citus.witnessCatalogA Citus.witnessStmtTwoCmds =
        .error e) ∧
    (Citus.ErrorIfUnsupportedAlterTableStmt Citus.witnessCatalogA Citus.witnessStmtSingleAdd =
        .ok [] ∧
      (Citus.witnessCatalogA.foreignConstraintCheckPasses Citus.witnessStmtSingleAdd.relationId = true →
        (∀ idx ∈ Citus.witnessCatalogA.relationIndexList Citus.witnessStmtSingleAdd.relationId,
          Citus.relevantIndex idx = true →
          Citus.indexCoversDistributionColumn Citus.witnessCatalogA idx
            (Citus.witnessCatalogA.distPartitionKey Citus.witnessStmtSingleAdd.relationId) = true) →
        (Citus.ErrorIfUnsupportedAlterAddConstraintStmt Citus.witnessCatalogA
          Citus.witnessStmtSingleAdd).2 = Option.none)) :=
  ⟨add_constraint_alone_rule.1 Citus.witnessCatalogA Citus.witnessStmtTwoCmds
      Citus.witnessAddConstraintCmd (by decide) (by simp [Citus.witnessStmtTwoCmds])
      (Or.inl rfl) (by decide),
    add_constraint_alone_rule.2 Citus.witnessCatalogA Citus.witnessStmtSingleAdd
      Citus.witnessAddConstraintCmd ⟨.primary, some "orders_pkey", 0⟩ "orders_pkey"
      (by decide) rfl rfl rfl rfl⟩

/-- Claim C7: a DROP COLUMN, ALTER COLUMN TYPE, ALTER COLUMN DROP NOT
NULL or column default subcommand naming the distribution column of a
distributed table always fails validation; on a relation without a
distribution column (a reference table) AlterInvolvesPartitionColumn is
false and the same sole subcommand passes this check. -/
theorem distribution_column_alter_rejected :
    (∀ (cat : Citus.Catalog) (stmt : Citus.AlterTableStmtModel) (cmd : Citus.AlterTableCmd)
        (colName : String) (k : Nat),
      stmt.relationId ≠ 0 →
      cmd ∈ stmt.cmds →
      (cmd.subtype = .dropColumn ∨ cmd.subtype = .columnDefault ∨
        cmd.subtype = .alterColumnType ∨ cmd.subtype = .dropNotNull) →
      cmd.name = some colName →
      cat.attributeNumber stmt.relationId colName = some k →
      cat.distPartitionKey stmt.relationId = some k →
      ∃ e, Citus.ErrorIfUnsupportedAlterTableStmt cat stmt = .error e) ∧
    (∀ (cat : Citus.Catalog) (stmt : Citus.AlterTableStmtModel) (cmd : Citus.AlterTableCmd),
      cat.distPartitionKey stmt.relationId = Option.none →
      Citus.AlterInvolvesPartitionColumn cat stmt cmd = false) ∧
    (∀ (cat : Citus.Catalog) (stmt : Citus.AlterTableStmtModel) (cmd : Citus.AlterTableCmd),
      stmt.relationId ≠ 0 →
      cat.distPartitionKey stmt.relationId = Option.none →
      stmt.cmds = [cmd] →
      (cmd.subtype = .dropColumn ∨ cmd.subtype = .columnDefault ∨
        cmd.subtype = .alterColumnType ∨ cmd.subtype = .dropNotNull) →
      Citus.ErrorIfUnsupportedAlterTableStmt cat stmt = .ok []) := by
  refine ⟨?_, ?_, ?_⟩
  · intro cat stmt cmd colName k h0 hmem hsub hname hattr hkey
    have hinv : Citus.AlterInvolvesPartitionColumn cat stmt cmd = true := by
      unfold Citus.AlterInvolvesPartitionColumn
      rw [if_neg h0, hname]
      simp [Option.bind, hattr, hkey]
    have hfail : ∃ e, Citus.alterTableCmdCheck cat stmt cmd = .fail e := by
      rcases hsub with h | h | h | h <;>
        exact ⟨.involvesPartitionColumn,
          by simp only [Citus.alterTableCmdCheck, h]; rw [if_pos hinv]⟩
    exact Citus.alterLoop_error_of_fail cat stmt h0 stmt.cmds cmd hmem hfail
  · intro cat stmt cmd h
    exact Citus.alterInvolves_of_no_key cat stmt cmd h
  · intro cat stmt cmd h0 hkey hcmds hsub
    have hinv := Citus.alterInvolves_of_no_key cat stmt cmd hkey
    unfold Citus.ErrorIfUnsupportedAlterTableStmt
    rw [hcmds]
    rcases hsub with h | h | h | h <;>
      simp [Citus.errorIfUnsupportedAlterTableLoop, Citus.alterTableCmdCheck, h, hinv]

/-- Witness for claim C7: DROP COLUMN customer_id (the distribution
column) on relation 1 fails, while the same subcommand on the reference
table 2 passes the check. -/
theorem distribution_column_alter_rejected_witness :
    (∃ e, Citus.ErrorIfUnsupportedAlterTableStmt Citus.witnessCatalogD Citus.witnessStmtDropCol =
        .error e) ∧
    (Citus.AlterInvolvesPartitionColumn Citus.witnessCatalogD Citus.witnessStmtDropColRef
        Citus.witnessDropColumnCmd = false) ∧
    (Citus.ErrorIfUnsupportedAlterTableStmt Citus.witnessCatalogD Citus.witnessStmtDropColRef =
        .ok []) :=
  ⟨distribution_column_alter_rejected.1 Citus.witnessCatalogD Citus.witnessStmtDropCol
      Citus.witnessDropColumnCmd "customer_id" 1 (by decide)
      (by simp [Citus.witnessStmtDropCol]) (Or.inl rfl) rfl (by decide) (by decide),
    distribution_column_alter_rejected.2.1 Citus.witnessCatalogD Citus.witnessStmtDropColRef
      Citus.witnessDropColumnCmd (by decide),
    distribution_column_alter_rejected.2.2 Citus.witnessCatalogD Citus.witnessStmtDropColRef
      Citus.witnessDropColumnCmd (by decide) (by decide) rfl (Or.inl rfl)⟩

/-- Claim C8: for a concurrently-built-index DDL job, any failure of the
shard-level task execution or of the bare metadata broadcast makes
ExecuteDistributedDDLJob raise the fixed error whose hint instructs the
operator to drop the invalid index and retry; the trace contains exactly
one shard-level execution attempt (no retry); and the non-transactional
in-place invalidation of the local index (PostProcessUtility) occurs in
the utility trace strictly before the shard-level execution attempt. -/
theorem concurrent_index_failure_handling (cat : Citus.Catalog) (job : Citus.DDLJob)
    (searchPathCommand : Option String) (sequentialConnection : Bool)
    (taskExecutionSucceeds broadcastSucceeds : Bool)
    (hconc : job.concurrentIndexCmd = true)
    (hfail : taskExecutionSucceeds = false ∨
      (cat.shouldSyncTableMetadata job.targetRelationId = true ∧ broadcastSucceeds = false)) :
    ((Citus.ProcessUtilityConcurrentIndexTail cat job searchPathCommand sequentialConnection
        taskExecutionSucceeds broadcastSucceeds true).2 =
      some (.report Citus.concurrentIndexFailureError)) ∧
    (Citus.concurrentIndexFailureError.hint =
      "Use DROP INDEX CONCURRENTLY IF EXISTS to remove the invalid index, then retry the original command.") ∧
    ((Citus.ProcessUtilityConcurrentIndexTail cat job searchPathCommand sequentialConnection
        taskExecutionSucceeds broadcastSucceeds true).1.countP Citus.isShardTaskExecution = 1) ∧
    ((Citus.ProcessUtilityConcurrentIndexTail cat job searchPathCommand sequentialConnection
        taskExecutionSucceeds broadcastSucceeds true).1.findIdx Citus.isMarkIndexInvalid <
      (Citus.ProcessUtilityConcurrentIndexTail cat job searchPathCommand sequentialConnection
        taskExecutionSucceeds broadcastSucceeds true).1.findIdx Citus.isShardTaskExecution) := by
  rcases hfail with hf | hff
  · subst hf
    refine ⟨?_, rfl, ?_, ?_⟩ <;>
      simp [Citus.ProcessUtilityConcurrentIndexTail, Citus.ExecuteDistributedDDLJob,
        Citus.PostProcessUtility, hconc, Citus.isShardTaskExecution, Citus.isMarkIndexInvalid,
        List.countP_cons, List.findIdx_cons]
  · obtain ⟨hsync, hb⟩ := hff
    subst hb
    cases htask : taskExecutionSucceeds <;>
      refine ⟨?_, rfl, ?_, ?_⟩ <;>
        simp [Citus.ProcessUtilityConcurrentIndexTail, Citus.ExecuteDistributedDDLJob,
          Citus.PostProcessUtility, hconc, hsync, Citus.isShardTaskExecution,
          Citus.isMarkIndexInvalid, List.countP_cons, List.findIdx_cons]

/-- Witness for claim C8: a concrete concurrent-index job whose bare
metadata broadcast fails. -/
theorem concurrent_index_failure_handling_witness :
    ((Citus.ProcessUtilityConcurrentIndexTail Citus.witnessCatalogMX
        Citus.witnessConcurrentIndexJob Option.none false true false true).2 =
      some (.report Citus.concurrentIndexFailureError)) ∧
    (Citus.concurrentIndexFailureError.hint =
      "Use DROP INDEX CONCURRENTLY IF EXISTS to remove the invalid index, then retry the original command.") ∧
    ((Citus.ProcessUtilityConcurrentIndexTail Citus.witnessCatalogMX
        Citus.witnessConcurrentIndexJob Option.none false true false true).1.countP
        Citus.isShardTaskExecution = 1) ∧
    ((Citus.ProcessUtilityConcurrentIndexTail Citus.witnessCatalogMX
        Citus.witnessConcurrentIndexJob Option.none false true false true).1.findIdx
        Citus.isMarkIndexInvalid <
      (Citus.ProcessUtilityConcurrentIndexTail Citus.witnessCatalogMX
        Citus.witnessConcurrentIndexJob Option.none false true false true).1.findIdx
        Citus.isShardTaskExecution) :=
  concurrent_index_failure_handling Citus.witnessCatalogMX Citus.witnessConcurrentIndexJob
    Option.none false true false rfl (Or.inr ⟨rfl, rfl⟩)


/-- Claim C9: distributed lock acquisition is deterministic in its
inputs: permuting the relation-id list or the worker-node list does not
change the emitted action sequence (ids and nodes are sorted first and
requests issued in that fixed nested order); no remote lock command is
ever sent to a worker of the local group; and for every metadata-synced
relation and every listed worker of the local group the lock is taken
in-process. -/
theorem distributed_lock_determinism :
    (∀ (cat : Citus.Catalog) (lockMode : Citus.LockMode) (rels1 rels2 : List Citus.Oid)
        (ws1 ws2 : List Citus.WorkerNode),
      rels1.Perm rels2 → ws1.Perm ws2 →
      Citus.AcquireDistributedLockOnRelations cat ws1 rels1 lockMode =
        Citus.AcquireDistributedLockOnRelations cat ws2 rels2 lockMode) ∧
    (∀ (cat : Citus.Catalog) (ws : List Citus.WorkerNode) (rels : List Citus.Oid)
        (lockMode : Citus.LockMode) (w : Citus.WorkerNode) (cmd : String),
      Citus.LockEvent.remoteSendCommand w cmd ∈
        Citus.AcquireDistributedLockOnRelations cat ws rels lockMode →
      w.groupId ≠ cat.localGroupId) ∧
    (∀ (cat : Citus.Catalog) (ws : List Citus.WorkerNode) (rels : List Citus.Oid)
        (lockMode : Citus.LockMode) (relId : Citus.Oid) (w : Citus.WorkerNode),
      relId ∈ rels → cat.shouldSyncTableMetadata relId = true →
      w ∈ ws → w.groupId = cat.localGroupId →
      Citus.LockEvent.localLockRelation relId lockMode ∈
        Citus.AcquireDistributedLockOnRelations cat ws rels lockMode) := by
  refine ⟨?_, ?_, ?_⟩
  · intro cat lockMode rels1 rels2 ws1 ws2 hr hw
    have h1 : List.insertionSort (fun a b => a ≤ b) rels1 =
        List.insertionSort (fun a b => a ≤ b) rels2 :=
      List.eq_of_perm_of_sorted
        (((List.perm_insertionSort _ rels1).trans hr).trans
          (List.perm_insertionSort _ rels2).symm)
        (List.sorted_insertionSort _ rels1) (List.sorted_insertionSort _ rels2)
    have h2 : List.insertionSort Citus.workerLe ws1 =
        List.insertionSort Citus.workerLe ws2 :=
      List.eq_of_perm_of_sorted
        (((List.perm_insertionSort _ ws1).trans hw).trans
          (List.perm_insertionSort _ ws2).symm)
        (List.sorted_insertionSort _ ws1) (List.sorted_insertionSort _ ws2)
    unfold Citus.AcquireDistributedLockOnRelations
    rw [h1, h2]
  · intro cat ws rels lockMode w cmd hmem
    unfold Citus.AcquireDistributedLockOnRelations at hmem
    rw [List.mem_flatMap] at hmem
    obtain ⟨relId, hrel, hin⟩ := hmem
    by_cases hsync : cat.shouldSyncTableMetadata relId = true
    · rw [if_pos hsync, List.mem_map] at hin
      obtain ⟨w2, hw2, heq⟩ := hin
      by_cases hg : w2.groupId = cat.localGroupId
      · rw [if_pos hg] at heq
        simp at heq
      · rw [if_neg hg] at heq
        injection heq with hweq hcmdeq
        subst hweq
        exact hg
    · rw [if_neg hsync] at hin
      cases hin
  · intro cat ws rels lockMode relId w hrel hsync hw hg
    unfold Citus.AcquireDistributedLockOnRelations
    rw [List.mem_flatMap]
    refine ⟨relId, (List.mem_insertionSort _).mpr hrel, ?_⟩
    rw [if_pos hsync]
    exact List.mem_map.mpr ⟨w, (List.mem_insertionSort _).mpr hw, by rw [if_pos hg]⟩

/-- Witness for claim C9: with one synced relation and a local plus a
remote worker, permuting the worker list yields the same sequence, the
remote command only targets the remote-group node, and the local-group
node locks in-process. -/
theorem distributed_lock_determinism_witness :
    (Citus.AcquireDistributedLockOnRelations Citus.witnessCatalogMX
        [Citus.witnessNodeRemote, Citus.witnessNodeLocal] [1] .accessExclusive =
      Citus.AcquireDistributedLockOnRelations Citus.witnessCatalogMX
        [Citus.witnessNodeLocal, Citus.witnessNodeRemote] [1] .accessExclusive) ∧
    (Citus.witnessNodeRemote.groupId ≠ Citus.witnessCatalogMX.localGroupId) ∧
    (Citus.LockEvent.localLockRelation 1 .accessExclusive ∈
      Citus.AcquireDistributedLockOnRelations Citus.witnessCatalogMX
        [Citus.witnessNodeRemote, Citus.witnessNodeLocal] [1] .accessExclusive) :=
  ⟨distributed_lock_determinism.1 Citus.witnessCatalogMX .accessExclusive [1] [1]
      [Citus.witnessNodeRemote, Citus.witnessNodeLocal]
      [Citus.witnessNodeLocal, Citus.witnessNodeRemote]
      (List.Perm.refl _) (List.Perm.swap _ _ _),
    distributed_lock_determinism.2.1 Citus.witnessCatalogMX
      [Citus.witnessNodeRemote, Citus.witnessNodeLocal] [1] .accessExclusive
      Citus.witnessNodeRemote
      (Citus.lockRelationIfExistsCommand (Citus.witnessCatalogMX.qualifiedRelationName 1)
        (Citus.lockModeToLockModeText .accessExclusive))
      (by decide),
    distributed_lock_determinism.2.2 Citus.witnessCatalogMX
      [Citus.witnessNodeRemote, Citus.witnessNodeLocal] [1] .accessExclusive 1
      Citus.witnessNodeLocal (by decide) rfl (by decide) rfl⟩

/-- Claim C10 counterexample: ALTER TABLE ... ATTACH PARTITION on the
distributed relation 1 where the partition (relation 5) exists but is
not distributed makes PlanAlterTableStmt return NIL - zero DDL jobs -
whereas the claim states that planning still returns exactly one DDL job
with an empty task list for every right-hand relation kind. -/
theorem attach_partition_nil_jobs_counterexample :
    (Citus.PlanAlterTableStmt Citus.witnessCatalogA Citus.txIdle Citus.witnessStmtAttach
        "ALTER TABLE orders ATTACH PARTITION orders_p").map (fun r => r.1.length) =
      .ok 0 := rfl

/-- Claim C10 (amended): when PlanAlterTableStmt resolves a right-hand
relation that exists but is not distributed, then for the ADD CONSTRAINT
FOREIGN KEY and DETACH PARTITION forms planning returns exactly one DDL
job whose task list is empty, with no error; for ATTACH PARTITION it
instead returns no DDL job at all (and still no error). -/
theorem plan_alter_table_right_relation_jobs :
    (∀ (cat : Citus.Catalog) (tx : Citus.TxState) (stmt : Citus.AlterTableStmtModel)
        (cmdStr : String) (cmd : Citus.AlterTableCmd) (c : Citus.ConstraintModel) (nm : String),
      stmt.relationPresent = true →
      stmt.relationId ≠ 0 →
      cat.relKind stmt.relationId ≠ .index →
      cat.isDistributedTable stmt.relationId = true →
      stmt.cmds = [cmd] →
      cmd.subtype = .addConstraint →
      cmd.defConstraint = some c →
      c.contype = .foreign →
      c.conname = some nm →
      c.pktableId ≠ 0 →
      cat.isDistributedTable c.pktableId = false →
      (Citus.PlanAlterTableStmt cat tx stmt cmdStr).map
          (fun r => (r.1.length, r.1.map (·.taskList))) = .ok (1, [[]])) ∧
    (∀ (cat : Citus.Catalog) (tx : Citus.TxState) (stmt : Citus.AlterTableStmtModel)
        (cmdStr : String) (cmd : Citus.AlterTableCmd),
      stmt.relationPresent = true →
      stmt.relationId ≠ 0 →
      cat.relKind stmt.relationId ≠ .index →
      cat.isDistributedTable stmt.relationId = true →
      stmt.cmds = [cmd] →
      cmd.subtype = .detachPartition →
      cmd.defPartitionId ≠ 0 →
      cat.isDistributedTable cmd.defPartitionId = false →
      (Citus.PlanAlterTableStmt cat tx stmt cmdStr).map
          (fun r => (r.1.length, r.1.map (·.taskList))) = .ok (1, [[]])) ∧
    (∀ (cat : Citus.Catalog) (tx : Citus.TxState) (stmt : Citus.AlterTableStmtModel)
        (cmdStr : String) (cmd : Citus.AlterTableCmd),
      stmt.relationPresent = true →
      stmt.relationId ≠ 0 →
      cat.relKind stmt.relationId ≠ .index →
      cat.isDistributedTable stmt.relationId = true →
      stmt.cmds = [cmd] →
      cmd.subtype = .attachPartition →
      cmd.defPartitionId ≠ 0 →
      cat.isDistributedTable cmd.defPartitionId = false →
      (Citus.PlanAlterTableStmt cat tx stmt cmdStr).map (fun r => r.1.length) = .ok 0) := by
  refine ⟨?_, ?_, ?_⟩
  · intro cat tx stmt cmdStr cmd c nm hp h0 hk hd hcmds hsub hc hcf hn hpne hpd
    have hval : Citus.ErrorIfUnsupportedAlterTableStmt cat stmt = .ok [] := by
      have hlen1 : ¬(stmt.cmds.length > 1) := by
        rw [hcmds]; simp
      unfold Citus.ErrorIfUnsupportedAlterTableStmt
      rw [hcmds]
      simp [Citus.errorIfUnsupportedAlterTableLoop, Citus.alterTableCmdCheck, hsub, hc, hn, hlen1]
    have hflag : Citus.alterTableSequentialFlag cat tx stmt.relationId cmd = (false, tx) := by
      simp [Citus.alterTableSequentialFlag, hsub, hc, hcf, hpd]
    have hmode : Citus.SetupExecutionModeForAlterTable cat tx stmt.relationId cmd =
        .ok (false, tx) := by
      unfold Citus.SetupExecutionModeForAlterTable
      rw [hflag]
      simp
    unfold Citus.PlanAlterTableStmt
    rw [if_neg (by simp [hp]), if_neg (fun h => h0 h), if_neg hk, if_neg (by simp [hd]),
      if_neg hk]
    rw [hval]
    rw [hcmds]
    simp only [Citus.planAlterCmdsLoop, Citus.planAlterCmdRightStep, hsub, hc]
    rw [if_pos hcf]
    simp only [Citus.rangeVarGetRelid, if_pos hpne, hmode]
    simp [hpne, hpd]
    rfl
  · intro cat tx stmt cmdStr cmd hp h0 hk hd hcmds hsub hpne hpd
    have hval : Citus.ErrorIfUnsupportedAlterTableStmt cat stmt = .ok [] := by
      have hlen1 : ¬(stmt.cmds.length > 1) := by
        rw [hcmds]; simp
      unfold Citus.ErrorIfUnsupportedAlterTableStmt
      rw [hcmds]
      simp [Citus.errorIfUnsupportedAlterTableLoop, Citus.alterTableCmdCheck, hsub, hlen1]
    have hflag : Citus.alterTableSequentialFlag cat tx stmt.relationId cmd = (false, tx) := by
      simp [Citus.alterTableSequentialFlag, hsub]
    have hmode : Citus.SetupExecutionModeForAlterTable cat tx stmt.relationId cmd =
        .ok (false, tx) := by
      unfold Citus.SetupExecutionModeForAlterTable
      rw [hflag]
      simp
    unfold Citus.PlanAlterTableStmt
    rw [if_neg (by simp [hp]), if_neg (fun h => h0 h), if_neg hk, if_neg (by simp [hd]),
      if_neg hk]
    rw [hval]
    rw [hcmds]
    simp only [Citus.planAlterCmdsLoop, Citus.planAlterCmdRightStep, hsub]
    simp only [Citus.rangeVarGetRelid, if_pos hpne, hmode]
    simp [hpne, hpd]
    rfl
  · intro cat tx stmt cmdStr cmd hp h0 hk hd hcmds hsub hpne hpd
    have hval : Citus.ErrorIfUnsupportedAlterTableStmt cat stmt = .ok [] := by
      have hlen1 : ¬(stmt.cmds.length > 1) := by
        rw [hcmds]; simp
      unfold Citus.ErrorIfUnsupportedAlterTableStmt
      rw [hcmds]
      simp [Citus.errorIfUnsupportedAlterTableLoop, Citus.alterTableCmdCheck, hsub, hlen1, hpne,
        hpd]
    unfold Citus.PlanAlterTableStmt
    rw [if_neg (by simp [hp]), if_neg (fun h => h0 h), if_neg hk, if_neg (by simp [hd]),
      if_neg hk]
    rw [hval]
    rw [hcmds]
    simp only [Citus.planAlterCmdsLoop, Citus.planAlterCmdRightStep, hsub]
    simp only [Citus.rangeVarGetRelid, if_pos hpne]
    simp [hpd]
    rfl

/-- Witness for claim C10 (amended): the sole ADD CONSTRAINT FOREIGN KEY
referencing the existing non-distributed relation 5 yields one job with
an empty task list, and the sole ATTACH PARTITION of the same relation
yields zero jobs. -/
theorem plan_alter_table_right_relation_jobs_witness :
    ((Citus.PlanAlterTableStmt Citus.witnessCatalogA Citus.txIdle Citus.witnessStmtAddFK
        "ALTER TABLE orders ADD CONSTRAINT fk_orders_w FOREIGN KEY (w) REFERENCES warehouses (id)").map
        (fun r => (r.1.length, r.1.map (·.taskList))) = .ok (1, [[]])) ∧
    ((Citus.PlanAlterTableStmt Citus.witnessCatalogA Citus.txIdle Citus.witnessStmtAttach
        "ALTER TABLE orders ATTACH PARTITION orders_p").map (fun r => r.1.length) = .ok 0) :=
  ⟨plan_alter_table_right_relation_jobs.1 Citus.witnessCatalogA Citus.txIdle
      Citus.witnessStmtAddFK
      "ALTER TABLE orders ADD CONSTRAINT fk_orders_w FOREIGN KEY (w) REFERENCES warehouses (id)"
      Citus.witnessAddFKCmd Citus.witnessFKConstraint "fk_orders_w" rfl (by decide) (by decide)
      rfl rfl rfl rfl rfl rfl (by decide) rfl,
    plan_alter_table_right_relation_jobs.2.2 Citus.witnessCatalogA Citus.txIdle
      Citus.witnessStmtAttach "ALTER TABLE orders ATTACH PARTITION orders_p"
      Citus.witnessAttachPartitionCmd rfl (by decide) (by decide) rfl rfl rfl (by decide) rfl⟩
